import Mathlib

/-!
# LamaOS (LAMAX64): a verification development

A shallow embedding of the string routines and console code of the kernel and
the boot shell, and of the platform layer (ACPI tables, PCI configuration
space, MSI, IOMMU domains) whose interface is given by the driver headers.

Conventions.  C integers are natural numbers or integers, with an explicit
reduction modulo a power of two where a width matters.  A C string is the
list of its characters; reading at the end of the list yields the
terminating NUL.
-/

namespace LamaOS

/-- Error kinds of system.h (ERROR_INVALID_PARAM = 1, ERROR_NOT_FOUND = 2,
ERROR_NO_MEMORY = 3, ERROR_IO_ERROR = 4, ERROR_ACCESS_DENIED = 5). -/
inductive Error where
  | InvalidParam
  | NotFound
  | NoMemory
  | IoError
  | AccessDenied
  deriving DecidableEq

/-- PAGE_SIZE of system.h. -/
def PAGE_SIZE : Nat := 4096

/-! ## ACPI tables (drivers/acpi.h) -/

/-- The acpi_table_header_t record of acpi.h; `signature` holds the four
signature bytes. -/
structure acpi_table_header_t where
  signature : List Nat
  length : Nat
  revision : Nat
  checksum : Nat
  oem_id : List Nat
  oem_table_id : List Nat
  oem_revision : Nat
  creator_id : Nat
  creator_revision : Nat
  deriving DecidableEq

/-- The acpi_rsdt_t record: header and 32-bit physical pointers. -/
structure acpi_rsdt_t where
  header : acpi_table_header_t
  entries : List Nat
  deriving DecidableEq

/-- The acpi_xsdt_t record: header and 64-bit physical pointers. -/
structure acpi_xsdt_t where
  header : acpi_table_header_t
  entries : List Nat
  deriving DecidableEq

/-- Firmware memory as seen by the table manager: the table header found at a
physical address. -/
abbrev AcpiMemory := Nat → acpi_table_header_t

/-- The root tables located by acpi_init. -/
structure acpi_root_t where
  rsdt : Option acpi_rsdt_t
  xsdt : Option acpi_xsdt_t

/-- Modelled from the spec: the pointer table cached by init(), which is
missing from the sources: the XSDT entries when an XSDT is present, else the
RSDT entries, else nothing. -/
def acpi_root_entries (root : acpi_root_t) : Option (List Nat) :=
  match root.xsdt with
  | some x => some x.entries
  | none =>
    match root.rsdt with
    | some r => some r.entries
    | none => none

/-- Modelled from the spec: the linear scan behind acpi_find_table, which is
missing from the sources.  `found` counts the matches passed so far; the entry
whose header signature equals `signature` when `found` reaches `index` is
returned, and running off the end is NotFound. -/
def acpi_find_table_scan (mem : AcpiMemory) (signature : List Nat) :
    List Nat → Nat → Nat → Except Error Nat
  | [], _, _ => .error .NotFound
  | e :: rest, index, found =>
    if (mem e).signature = signature then
      if found = index then .ok e
      else acpi_find_table_scan mem signature rest index (found + 1)
    else acpi_find_table_scan mem signature rest index found

/-- Modelled from the spec: acpi_find_table(signature, index), declared in
acpi.h and missing from the sources; the result is the physical address of the
table or NotFound (the NULL pointer of the prototype). -/
def acpi_find_table (mem : AcpiMemory) (root : acpi_root_t)
    (signature : List Nat) (index : Nat) : Except Error Nat :=
  match acpi_root_entries root with
  | none => .error .NotFound
  | some entries => acpi_find_table_scan mem signature entries index 0

/-- The root entries whose table header carries `signature`, in entry
order. -/
def acpi_matching (mem : AcpiMemory) (signature : List Nat)
    (entries : List Nat) : List Nat :=
  entries.filter (fun e => decide ((mem e).signature = signature))

/-- A header with the given signature and every other field zero. -/
def acpi_header_of (signature : List Nat) : acpi_table_header_t :=
  { signature := signature, length := 36, revision := 1, checksum := 0,
    oem_id := [], oem_table_id := [], oem_revision := 0, creator_id := 0,
    creator_revision := 0 }

/-- A sample firmware memory: "APIC" tables at 0x1000 and 0x3000, an "MCFG"
table at 0x2000, "FACP" everywhere else. -/
def acpi_sample_memory : AcpiMemory := fun a =>
  if a = 0x1000 ∨ a = 0x3000 then acpi_header_of [65, 80, 73, 67]
  else if a = 0x2000 then acpi_header_of [77, 67, 70, 71]
  else acpi_header_of [70, 65, 67, 80]

/-- A sample root: an XSDT with entries 0x1000, 0x2000, 0x3000. -/
def acpi_sample_root : acpi_root_t :=
  { rsdt := none,
    xsdt := some { header := acpi_header_of [88, 83, 68, 84],
                   entries := [0x1000, 0x2000, 0x3000] } }

/-! ## PCI configuration space (drivers/pci_driver.h) -/

/-- PCI_MAX_CAPABILITIES of pci_driver.h. -/
def PCI_MAX_CAPABILITIES : Nat := 32

/-- The capabilities pointer register of the configuration header. -/
def PCI_CAPABILITIES_POINTER : Nat := 0x34

/-- The capability-list bit of the status register. -/
def PCI_STATUS_CAP_LIST : Nat := 0x10

/-- The byte-addressed configuration space of one function. -/
abbrev ConfigBytes := Nat → Nat

/-- The "next" byte of the capability entry at `offset`. -/
def pci_cap_next (cfg : ConfigBytes) (offset : Nat) : Nat := cfg (offset + 1)

/-- The outcome of a capability-list walk: the offsets of the entries visited,
in order, and the error raised, if any. -/
structure cap_walk_t where
  visited : List Nat
  error : Option Error
  deriving DecidableEq

/-- Modelled from the spec: the capability-list walk of the enumerator, which
is missing from the sources (pci_driver.h gives PCI_MAX_CAPABILITIES and the
pci_capability_t record only).  From `offset` the walk follows each entry's
"next" byte, stops at the sentinel offset 0, and is bounded by `budget`
entries; an entry beyond the bound is IoError. -/
def pci_cap_walk_from (cfg : ConfigBytes) : Nat → Nat → List Nat → cap_walk_t
  | 0, offset, acc =>
    if offset = 0 then { visited := acc.reverse, error := none }
    else { visited := acc.reverse, error := some .IoError }
  | b + 1, offset, acc =>
    if offset = 0 then { visited := acc.reverse, error := none }
    else pci_cap_walk_from cfg b (pci_cap_next cfg offset) (offset :: acc)

/-- Modelled from the spec: the capability-list walk of one function, missing
from the sources.  It is entered only when the capability-list bit of `status`
is set, and starts at the offset stored in the capabilities pointer
register. -/
def pci_walk_capabilities (cfg : ConfigBytes) (status : Nat) : cap_walk_t :=
  if status &&& PCI_STATUS_CAP_LIST = 0 then { visited := [], error := none }
  else pci_cap_walk_from cfg PCI_MAX_CAPABILITIES (cfg PCI_CAPABILITIES_POINTER) []

/-- The offset of the n-th entry of the chain that starts at the capabilities
pointer (meaningful up to the first sentinel 0). -/
def pci_cap_chain (cfg : ConfigBytes) : Nat → Nat
  | 0 => cfg PCI_CAPABILITIES_POINTER
  | n + 1 => pci_cap_next cfg (pci_cap_chain cfg n)

/-- A configuration space whose chain is 0x40 -> 0x50 -> 0x40 -> ... -/
def pci_cyclic_config : ConfigBytes := fun o =>
  if o = 0x34 then 0x40 else if o = 0x41 then 0x50 else if o = 0x51 then 0x40 else 0

/-- A configuration space whose chain is 0x40 -> 0x50 -> 0x60 -> 0. -/
def pci_acyclic_config : ConfigBytes := fun o =>
  if o = 0x34 then 0x40 else if o = 0x41 then 0x50 else if o = 0x51 then 0x60 else 0

/-! ## BAR sizing (drivers/pci_driver.h) -/

/-- PCI_ADDRESS_SPACE_IO of pci_driver.h (bit 0 of a BAR). -/
def PCI_ADDRESS_SPACE_IO : Nat := 0x01

/-- PCI_ADDRESS_MEM_64BIT of pci_driver.h (type bits 2:1 of a memory BAR). -/
def PCI_ADDRESS_MEM_64BIT : Nat := 0x04

/-- PCI_ADDRESS_MEM_PREFETCH of pci_driver.h. -/
def PCI_ADDRESS_MEM_PREFETCH : Nat := 0x08

/-- Offset of BAR 0 in the configuration header. -/
def PCI_BAR0_OFFSET : Nat := 0x10

/-- The pci_device_t record of pci_driver.h. -/
structure pci_device_t where
  bus : Nat
  slot : Nat
  function : Nat
  vendor_id : Nat
  device_id : Nat
  command : Nat
  status : Nat
  revision_id : Nat
  prog_if : Nat
  subclass : Nat
  class_code : Nat
  cache_line_size : Nat
  latency_timer : Nat
  header_type : Nat
  bist : Nat
  subsys_vendor_id : Nat
  subsys_device_id : Nat
  bars : List Nat
  cardbus_cis : Nat
  vendor_specific : List Nat
  rom_address : Nat
  interrupt_line : Nat
  interrupt_pin : Nat
  min_grant : Nat
  max_latency : Nat
  deriving DecidableEq

/-- A simulated 32-bit configuration register: `wmask` are the writable bits,
`ro` the hardwired bits that read as one, `latch` the value last written. -/
structure sim_reg where
  wmask : Nat
  ro : Nat
  latch : Nat
  deriving DecidableEq

/-- The value a simulated register holds: the written bits that are writable,
and the hardwired ones. -/
def sim_reg.value (r : sim_reg) : Nat := (r.latch &&& r.wmask) ||| r.ro

/-- The simulated configuration space: bus, slot, function, offset. -/
abbrev ConfigSpace := Nat → Nat → Nat → Nat → sim_reg

/-- Modelled from the spec: pci_read_config32, declared in pci_driver.h and
missing from the sources, over the simulated configuration space. -/
def pci_read_config32 (hw : ConfigSpace) (bus slot func offset : Nat) : Nat :=
  (hw bus slot func offset).value

/-- Modelled from the spec: pci_write_config32, declared in pci_driver.h and
missing from the sources, over the simulated configuration space. -/
def pci_write_config32 (hw : ConfigSpace) (bus slot func offset value : Nat) :
    ConfigSpace :=
  fun b s f o =>
    if b = bus ∧ s = slot ∧ f = func ∧ o = offset then
      { hw b s f o with latch := value }
    else hw b s f o

/-- The lowest set bit of a w-bit value (0 for 0): x and its two's
complement. -/
def lowest_set_bit (w x : Nat) : Nat := x &&& ((2 ^ w - x % 2 ^ w) % 2 ^ w)

/-- Modelled from the spec: pci_get_bar_size, declared in pci_driver.h and
missing from the sources.  The probe saves the BAR, writes all-ones, reads
back, masks off the type and flag bits and takes the lowest set bit; the saved
value is written back on every path.  A 64-bit memory BAR is probed and
restored together with the next register.  Size 0 reports failure (bad index,
64-bit BAR in the last slot, or no address bit implemented). -/
def pci_get_bar_size (hw : ConfigSpace) (device : pci_device_t) (bar_index : Nat) :
    Nat × ConfigSpace :=
  if 6 ≤ bar_index then (0, hw)
  else
    let offset := PCI_BAR0_OFFSET + 4 * bar_index
    let orig := pci_read_config32 hw device.bus device.slot device.function offset
    let hw1 := pci_write_config32 hw device.bus device.slot device.function offset 0xFFFFFFFF
    let probe := pci_read_config32 hw1 device.bus device.slot device.function offset
    if orig &&& PCI_ADDRESS_SPACE_IO ≠ 0 then
      (lowest_set_bit 32 (probe &&& 0xFFFFFFFC),
        pci_write_config32 hw1 device.bus device.slot device.function offset orig)
    else if orig &&& 0x06 = PCI_ADDRESS_MEM_64BIT then
      if 5 ≤ bar_index then
        (0, pci_write_config32 hw1 device.bus device.slot device.function offset orig)
      else
        let orig_hi := pci_read_config32 hw1 device.bus device.slot device.function (offset + 4)
        let hw2 := pci_write_config32 hw1 device.bus device.slot device.function (offset + 4)
          0xFFFFFFFF
        let probe_hi := pci_read_config32 hw2 device.bus device.slot device.function (offset + 4)
        let hw3 := pci_write_config32 hw2 device.bus device.slot device.function (offset + 4)
          orig_hi
        (lowest_set_bit 64 ((probe_hi <<< 32) ||| (probe &&& 0xFFFFFFF0)),
          pci_write_config32 hw3 device.bus device.slot device.function offset orig)
    else
      (lowest_set_bit 32 (probe &&& 0xFFFFFFF0),
        pci_write_config32 hw1 device.bus device.slot device.function offset orig)

/-- A device record at bus 0, slot 3, function 0. -/
def pci_sample_device : pci_device_t :=
  { bus := 0, slot := 3, function := 0, vendor_id := 0x8086, device_id := 0x100E,
    command := 0, status := 0x10, revision_id := 0, prog_if := 0, subclass := 0,
    class_code := 2, cache_line_size := 0, latency_timer := 0, header_type := 0,
    bist := 0, subsys_vendor_id := 0, subsys_device_id := 0,
    bars := [0xFEBC0000, 0, 0, 0, 0, 0], cardbus_cis := 0, vendor_specific := [0, 0],
    rom_address := 0, interrupt_line := 11, interrupt_pin := 1, min_grant := 0,
    max_latency := 0 }

/-- A simulated configuration space in which every register is a 32-bit
memory BAR with address bits 12..31 writable, holding 0xFEBC0000. -/
def pci_sample_hw : ConfigSpace := fun _ _ _ _ =>
  { wmask := 0xFFFFF000, ro := 0, latch := 0xFEBC0000 }

/-! ## IOMMU domains (drivers/iommu.h) -/

/-- The iommu_domain_type_t enumeration of iommu.h. -/
inductive iommu_domain_type_t where
  | IOMMU_DOMAIN_IDENTITY
  | IOMMU_DOMAIN_DMA
  | IOMMU_DOMAIN_UNMANAGED
  | IOMMU_DOMAIN_VIRTUAL
  deriving DecidableEq

/-- The iommu_device_t record of iommu.h (without the list link). -/
structure iommu_device_t where
  segment : Nat
  bus : Nat
  device : Nat
  function : Nat
  vendor_id : Nat
  device_id : Nat
  capabilities : Nat
  base_address : Nat
  version : Nat
  deriving DecidableEq

/-- The iommu_mapping_t record of iommu.h (without the domain back pointer and
the list link: the mappings of a domain are kept in the domain). -/
structure iommu_mapping_t where
  virt_address : Nat
  phys_address : Nat
  size : Nat
  flags : Nat
  deriving DecidableEq

/-- The iommu_domain_t record of iommu.h, together with the set of attached
devices and the live mappings that the spec gives to a domain.  `ref_count` is
kept as a natural number. -/
structure iommu_domain_t where
  type : iommu_domain_type_t
  page_table_phys : Nat
  address_width : Nat
  dma_mask : Nat
  ref_count : Nat
  attached : List iommu_device_t
  mappings : List iommu_mapping_t
  deriving DecidableEq

/-- Modelled from the spec: iommu_domain_alloc, declared in iommu.h and missing
from the sources.  The page-table root and the address width come from the
caller of the model.  An Identity domain starts with the 1:1 mapping of the
whole masked range, every other domain starts empty; no device is attached. -/
def iommu_domain_alloc (type : iommu_domain_type_t) (dma_mask : Nat)
    (page_table_phys address_width : Nat) : iommu_domain_t :=
  { type := type, page_table_phys := page_table_phys, address_width := address_width,
    dma_mask := dma_mask, ref_count := 0, attached := [],
    mappings :=
      match type with
      | .IOMMU_DOMAIN_IDENTITY =>
        [{ virt_address := 0, phys_address := 0, size := dma_mask + 1, flags := 0 }]
      | _ => [] }

/-- Modelled from the spec: iommu_attach_device, declared in iommu.h and missing
from the sources: a device that is not yet attached joins the device set and
the reference count grows by one; attaching an attached device fails. -/
def iommu_attach_device (domain : iommu_domain_t) (device : iommu_device_t) :
    Bool × iommu_domain_t :=
  if device ∈ domain.attached then (false, domain)
  else (true, { domain with attached := device :: domain.attached,
                            ref_count := domain.ref_count + 1 })

/-- Modelled from the spec: iommu_detach_device, declared in iommu.h and missing
from the sources: an attached device leaves the device set and the reference
count drops by one; detaching a device that is not attached fails. -/
def iommu_detach_device (domain : iommu_domain_t) (device : iommu_device_t) :
    Bool × iommu_domain_t :=
  if device ∈ domain.attached then
    (true, { domain with attached := domain.attached.erase device,
                         ref_count := domain.ref_count - 1 })
  else (false, domain)

/-- Whether [iova, iova+size) meets no live mapping of the list (the test of
the allocator; an empty range is also kept out of the inside of a mapping). -/
def iommu_range_free (ms : List iommu_mapping_t) (iova size : Nat) : Bool :=
  ms.all (fun m => !(decide (iova < m.virt_address + m.size) &&
                     decide (m.virt_address < iova + size)))

/-- Modelled from the spec: the IOVA allocator of a DMA domain, missing from the
sources.  A lowest free range starts at 0 or at the end of a live mapping; the
first such start that fits under the DMA mask and is free is taken. -/
def iommu_find_free_iova (domain : iommu_domain_t) (size : Nat) : Option Nat :=
  (0 :: domain.mappings.map (fun m => m.virt_address + m.size)).find?
    (fun c => decide (c + size ≤ domain.dma_mask + 1) &&
              iommu_range_free domain.mappings c size)

/-- Modelled from the spec: iommu_map, declared in iommu.h and missing from the
sources.  A size that is not page-aligned is InvalidParam.  On an Identity
domain the call changes nothing and the IOVA is the physical address.  On a DMA
domain a free IOVA range is allocated and installed with the flags, or the call
fails with NoMemory.  The spec gives no rule for Unmanaged and Virtual domains
(they are populated by the caller); the model rejects the call there. -/
def iommu_map (domain : iommu_domain_t) (phys_addr size flags : Nat) :
    Except Error Nat × iommu_domain_t :=
  if size % PAGE_SIZE ≠ 0 then (.error .InvalidParam, domain)
  else
    match domain.type with
    | .IOMMU_DOMAIN_IDENTITY => (.ok phys_addr, domain)
    | .IOMMU_DOMAIN_DMA =>
      match iommu_find_free_iova domain size with
      | none => (.error .NoMemory, domain)
      | some iova =>
        (.ok iova,
          { domain with
            mappings := { virt_address := iova, phys_address := phys_addr,
                          size := size, flags := flags } :: domain.mappings })
    | _ => (.error .InvalidParam, domain)

/-- Modelled from the spec: iommu_unmap, declared in iommu.h and missing from
the sources: the entries of the mapping [iova, iova+size) are removed; the call
fails when there is no such mapping. -/
def iommu_unmap (domain : iommu_domain_t) (iova size : Nat) : Bool × iommu_domain_t :=
  if domain.mappings.any (fun m => decide (m.virt_address = iova ∧ m.size = size)) then
    (true, { domain with
             mappings := domain.mappings.filter
               (fun m => !decide (m.virt_address = iova ∧ m.size = size)) })
  else (false, domain)

/-- Modelled from the spec: iommu_set_dma_mask, declared in iommu.h. -/
def iommu_set_dma_mask (domain : iommu_domain_t) (dma_mask : Nat) : Bool × iommu_domain_t :=
  (true, { domain with dma_mask := dma_mask })

/-- The operations on a domain. -/
inductive iommu_op where
  | attach (device : iommu_device_t)
  | detach (device : iommu_device_t)
  | map (phys_addr size flags : Nat)
  | unmap (iova size : Nat)
  | flush_tlb
  | flush_cache
  | set_dma_mask (dma_mask : Nat)
  deriving DecidableEq

/-- The domain after one operation (the flushes leave the record as it is). -/
def iommu_step (domain : iommu_domain_t) : iommu_op → iommu_domain_t
  | .attach device => (iommu_attach_device domain device).2
  | .detach device => (iommu_detach_device domain device).2
  | .map phys_addr size flags => (iommu_map domain phys_addr size flags).2
  | .unmap iova size => (iommu_unmap domain iova size).2
  | .flush_tlb => domain
  | .flush_cache => domain
  | .set_dma_mask dma_mask => (iommu_set_dma_mask domain dma_mask).2

/-- The domain after a sequence of operations. -/
def iommu_run (domain : iommu_domain_t) (ops : List iommu_op) : iommu_domain_t :=
  ops.foldl iommu_step domain

/-- The IOVA ranges of two mappings share no address. -/
def iommu_disjoint (a b : iommu_mapping_t) : Prop :=
  ∀ x, ¬ (a.virt_address ≤ x ∧ x < a.virt_address + a.size ∧
          b.virt_address ≤ x ∧ x < b.virt_address + b.size)

/-- A sample device, 0000:00:03.0. -/
def iommu_sample_device : iommu_device_t :=
  { segment := 0, bus := 0, device := 3, function := 0, vendor_id := 0x8086,
    device_id := 0x100E, capabilities := 0, base_address := 0xFED90000, version := 1 }

/-- A sample DMA domain with a 32-bit DMA mask. -/
def iommu_sample_domain : iommu_domain_t :=
  iommu_domain_alloc .IOMMU_DOMAIN_DMA 0xFFFFFFFF 0x200000 48

/-! ## MSI configuration (drivers/pci_driver.h) -/

/-- PCI_MAX_MSI_VECTORS of pci_driver.h. -/
def PCI_MAX_MSI_VECTORS : Nat := 32

/-- The msi_info_t record of pci_driver.h. -/
structure msi_info_t where
  supported : Bool
  enabled : Bool
  is_64bit : Bool
  offset : Nat
  multiple_message_capable : Nat
  per_vector_masking : Bool
  base_vector : Nat
  num_vectors : Nat
  address : Nat
  data : Nat
  deriving DecidableEq

/-- Modelled from the spec: the rounding of the requested vector count, missing
from the sources.  Starting from `count`, the count is doubled while `steps`
doublings remain and the double does not exceed the request. -/
def msi_round_down : Nat → Nat → Nat → Nat
  | 0, count, _ => count
  | steps + 1, count, requested =>
    if 2 * count ≤ requested then msi_round_down steps (2 * count) requested
    else count

/-- Modelled from the spec: pci_setup_msi, declared in pci_driver.h and missing
from the sources, on the MSI view of the device.  Without MSI support or with a
request of 0 vectors the call fails.  Otherwise address and data are
programmed, the vector count is the request rounded down to a power of two
within 2 ^ multiple_message_capable, and the enable bit is set last. -/
def pci_setup_msi (msi : msi_info_t) (vector_count address data base_vector : Nat) :
    Bool × msi_info_t :=
  if msi.supported = false ∨ vector_count = 0 then (false, msi)
  else
    let programmed : msi_info_t :=
      { msi with address := address, data := data, base_vector := base_vector,
                 num_vectors := msi_round_down msi.multiple_message_capable 1 vector_count }
    (true, { programmed with enabled := true })

/-- An MSI view with multiple_message_capable = 3 (up to 8 vectors). -/
def msi_sample : msi_info_t :=
  { supported := true, enabled := false, is_64bit := true, offset := 0x50,
    multiple_message_capable := 3, per_vector_masking := false, base_vector := 0,
    num_vectors := 0, address := 0, data := 0 }

/-! ## C strings (boot/shell.c, kernel/lamax64-1.0.0.c) -/

/-- The characters of a string literal, as the C string they denote. -/
def cstr (s : String) : List Int := s.toList.map (fun c => Int.ofNat c.toNat)

/-- The character read through a `char*` that points at the start of `s`: the
head of the list, or the terminating NUL when the list is used up. -/
def peek (s : List Int) : Int := s.headD 0

/-- The character `s[i]`, the terminator counted as 0. -/
def char_at (s : List Int) (i : Nat) : Int := s.getD i 0

/-- The character `s[i]` for an `int` index i; memory outside the list reads
as 0. -/
def read_char (s : List Int) (i : Int) : Int := if i < 0 then 0 else s.getD i.toNat 0

/-- The value a 32-bit `int` holds after an arithmetic result x: x reduced
modulo 2^32 into the range -2^31 .. 2^31 - 1. -/
def wrap_int (x : Int) : Int := (x + 2147483648) % 4294967296 - 2147483648

/-- The index of the first NUL in the memory at a pointer, that is, the
length L of the string held there (the end of the list counts as a NUL). -/
def first_nul : List Int → Nat
  | [] => 0
  | c :: s => if c ≠ 0 then first_nul s + 1 else 0

/-- The list is the content of a NUL-terminated string: no character before
the terminator is NUL. -/
def is_cstring (s : List Int) : Prop := ∀ c ∈ s, c ≠ 0

instance (s : List Int) : Decidable (is_cstring s) := by
  unfold is_cstring; infer_instance

namespace Shell

/-- The strcmp of boot/shell.c:
`while(*str1 && (*str1 == *str2)) { str1++; str2++; } return *str1 - *str2;` -/
def strcmp : List Int → List Int → Int
  | [], str2 => 0 - peek str2
  | c1 :: str1, str2 =>
    if c1 ≠ 0 ∧ c1 = peek str2 then strcmp str1 str2.tail
    else c1 - peek str2

end Shell

namespace Kernel

/-- The strcmp of kernel/lamax64-1.0.0.c:
`while(*str1 && (*str1 == *str2)) { str1++; str2++; } return *str1 - *str2;` -/
def strcmp : List Int → List Int → Int
  | [], str2 => 0 - peek str2
  | c1 :: str1, str2 =>
    if c1 ≠ 0 ∧ c1 = peek str2 then strcmp str1 str2.tail
    else c1 - peek str2

/-- The strncmp of kernel/lamax64-1.0.0.c:
`while(n-- && *str1 && (*str1 == *str2)) { str1++; str2++; }`
`return n < 0 ? 0 : *str1 - *str2;`
Each test of the loop condition reads n and then decrements it, so the loop is
left with n one below the value tested. -/
def strncmp : List Int → List Int → Int → Int
  | [], str2, n => if n - 1 < 0 then 0 else 0 - peek str2
  | c1 :: str1, str2, n =>
    if n ≠ 0 ∧ c1 ≠ 0 ∧ c1 = peek str2 then strncmp str1 str2.tail (n - 1)
    else if n - 1 < 0 then 0 else c1 - peek str2

end Kernel

/-! ## The kernel console and command dispatcher (kernel/lamax64-1.0.0.c) -/

namespace Kernel

/-- The loop of strlen in kernel/lamax64-1.0.0.c, `while(str[len]) len++;`,
run for at most `rounds` rounds from the counter value `len`; `len` is a 32-bit
`int`, so the increment wraps. -/
def strlen_loop (str : List Int) : Nat → Int → Int
  | 0, len => len
  | rounds + 1, len =>
    if read_char str len ≠ 0 then strlen_loop str rounds (wrap_int (len + 1)) else len

/-- The strlen of kernel/lamax64-1.0.0.c:
`int len = 0; while(str[len]) len++; return len;`
str.length + 1 rounds are enough for the loop to be left: it stops at the
first NUL, at the end of the list, or when the counter has wrapped. -/
def strlen (str : List Int) : Int := strlen_loop str (str.length + 1) 0

/-- The store `buf[i] = v` into the memory that starts at `buf`; the memory
behind the end of the list reads as 0. -/
def store (buf : List Int) (i : Nat) (v : Int) : List Int :=
  if i < buf.length then buf.set i v
  else buf ++ List.replicate (i - buf.length) 0 ++ [v]

/-- The strcpy of kernel/lamax64-1.0.0.c, returning the memory at `dest`:
`while(*src) *dest++ = *src++; *dest = 0;` -/
def strcpy : List Int → List Int → List Int
  | dest, [] => 0 :: dest.tail
  | dest, c :: src => if c ≠ 0 then c :: strcpy dest.tail src else 0 :: dest.tail

/-- The globals of the kernel: the VGA text buffer at 0xB8000 (two bytes per
cell: character, attribute), the cursor, and the current_path buffer. -/
structure KState where
  vga_buffer : Nat → Int
  cursor_x : Nat
  cursor_y : Nat
  current_path : List Int

/-- The store `vga_buffer[i] = v`. -/
def vga_set (buf : Nat → Int) (i : Nat) (v : Int) : Nat → Int :=
  fun j => if j = i then v else buf j

/-- The first loop of the scroll: rows 1..24 move up by one row,
`vga_buffer[i * 2] = vga_buffer[(i + 80) * 2];`
`vga_buffer[i * 2 + 1] = vga_buffer[(i + 80) * 2 + 1];` for i < 24 * 80. -/
def scroll_copy (buf : Nat → Int) : Nat → Int :=
  (List.range (24 * 80)).foldl
    (fun b i =>
      let b1 := vga_set b (i * 2) (b ((i + 80) * 2))
      vga_set b1 (i * 2 + 1) (b1 ((i + 80) * 2 + 1)))
    buf

/-- The loop that blanks cells `from .. from + count - 1`:
`vga_buffer[i * 2] = ' '; vga_buffer[i * 2 + 1] = 0x07;` -/
def blank_cells (buf : Nat → Int) (start count : Nat) : Nat → Int :=
  (List.range' start count).foldl
    (fun b i => vga_set (vga_set b (i * 2) 32) (i * 2 + 1) 0x07)
    buf

/-- The end of each round of the print loops: wrap at column 80, and scroll by
one row once the cursor leaves row 24. -/
def advance (s : KState) : KState :=
  let s1 : KState :=
    if s.cursor_x ≥ 80 then { s with cursor_x := 0, cursor_y := s.cursor_y + 1 } else s
  if s1.cursor_y ≥ 25 then
    { s1 with cursor_y := 24,
              vga_buffer := blank_cells (scroll_copy s1.vga_buffer) (24 * 80) 80 }
  else s1

/-- One round of the print loops for the character c with attribute attr. -/
def put_char (c attr : Int) (s : KState) : KState :=
  let s1 : KState :=
    if c = 10 then { s with cursor_x := 0, cursor_y := s.cursor_y + 1 }
    else
      let index := (s.cursor_y * 80 + s.cursor_x) * 2
      { s with vga_buffer := vga_set (vga_set s.vga_buffer index c) (index + 1) attr,
               cursor_x := s.cursor_x + 1 }
  advance s1

/-- The kprint of kernel/lamax64-1.0.0.c (attribute 0x07). -/
def kprint : List Int → KState → KState
  | [], s => s
  | c :: str, s => if c ≠ 0 then kprint str (put_char c 0x07 s) else s

/-- The kprint_colored of kernel/lamax64-1.0.0.c. -/
def kprint_colored : List Int → Int → KState → KState
  | [], _, s => s
  | c :: str, color, s => if c ≠ 0 then kprint_colored str color (put_char c color s) else s

/-- The outcome of running a call with a bound on the number of loop rounds:
the state reached, and whether the call has returned to its caller. -/
structure Run where
  state : KState
  returned : Bool

/-- The loop `while(1) body;` run for at most `fuel` rounds; the statement
after the loop is reached only when the condition 1 is found false. -/
def while_one (body : KState → KState) : Nat → KState → Run
  | 0, s => { state := s, returned := false }
  | fuel + 1, s =>
    if (1 : Int) ≠ 0 then while_one body fuel (body s)
    else { state := s, returned := true }

/-- VGA_COLOR_LIGHT_RED of system.h. -/
def VGA_COLOR_LIGHT_RED : Int := 12

/-- The HLT macro of system.h (`hlt`): the processor waits; no global
changes. -/
def HLT (s : KState) : KState := s

/-- The PANIC macro of system.h.  disable_interrupts is declared in system.h
and defined nowhere in the sources; it is a parameter here. -/
def PANIC (disable_interrupts : KState → KState) (fuel : Nat) (msg : List Int)
    (s : KState) : Run :=
  let s1 := disable_interrupts s
  let s2 := kprint_colored (cstr "KERNEL PANIC: ") VGA_COLOR_LIGHT_RED s1
  let s3 := kprint msg s2
  let s4 := kprint (cstr "\nSystem halted.\n") s3
  while_one HLT fuel s4

/-- The cmd_help of the kernel. -/
def cmd_help (s : KState) : KState :=
  let s := kprint_colored (cstr "LAMAX64 Kernel v1.0.0 - Available Commands:\n\n") 0x0E s
  let s := kprint_colored (cstr "File Operations:\n") 0x0B s
  let s := kprint (cstr "  ls / dir     - List directory contents\n") s
  let s := kprint (cstr "  cd           - Change directory\n") s
  let s := kprint (cstr "  pwd          - Print working directory\n") s
  let s := kprint (cstr "  mkdir        - Create directory\n") s
  let s := kprint (cstr "  rmdir        - Remove directory\n") s
  let s := kprint (cstr "  cp / copy    - Copy files\n") s
  let s := kprint (cstr "  mv / move    - Move/rename files\n") s
  let s := kprint (cstr "  rm / del     - Delete files\n") s
  let s := kprint (cstr "  cat / type   - Display file contents\n\n") s
  let s := kprint_colored (cstr "System Commands:\n") 0x0B s
  let s := kprint (cstr "  ps           - List running processes\n") s
  let s := kprint (cstr "  top          - Show system performance\n") s
  let s := kprint (cstr "  clear / cls  - Clear screen\n") s
  let s := kprint (cstr "  date         - Show system date/time\n") s
  let s := kprint (cstr "  uname        - System information\n") s
  let s := kprint (cstr "  ver          - System version\n") s
  let s := kprint (cstr "  exit         - Exit system\n") s
  let s := kprint (cstr "  shutdown     - Shutdown system\n") s
  let s := kprint (cstr "  reboot       - Restart system\n\n") s
  let s := kprint_colored (cstr "Network Commands:\n") 0x0B s
  let s := kprint (cstr "  ping         - Network connectivity test\n") s
  let s := kprint (cstr "  netstat      - Network connections\n") s
  kprint (cstr "  ipconfig     - Network configuration\n\n") s

/-- The cmd_clear of the kernel: blank the 80 * 25 cells, cursor to (0, 0). -/
def cmd_clear (s : KState) : KState :=
  { s with vga_buffer := blank_cells s.vga_buffer 0 (80 * 25), cursor_x := 0, cursor_y := 0 }

/-- The cmd_ls of the kernel. -/
def cmd_ls (s : KState) : KState :=
  let s := kprint_colored (cstr "Directory listing for ") 0x07 s
  let s := kprint_colored s.current_path 0x0E s
  let s := kprint (cstr ":\n\n") s
  let s := kprint_colored (cstr "drwxr-xr-x  2 root root  4096 Sep 02 2025 ") 0x0B s
  let s := kprint (cstr "bin/\n") s
  let s := kprint_colored (cstr "drwxr-xr-x  2 root root  4096 Sep 02 2025 ") 0x0B s
  let s := kprint (cstr "etc/\n") s
  let s := kprint_colored (cstr "drwxr-xr-x  2 root root  4096 Sep 02 2025 ") 0x0B s
  let s := kprint (cstr "home/\n") s
  let s := kprint_colored (cstr "drwxr-xr-x  2 root root  4096 Sep 02 2025 ") 0x0B s
  let s := kprint (cstr "kernel/\n") s
  let s := kprint_colored (cstr "drwxr-xr-x  2 root root  4096 Sep 02 2025 ") 0x0B s
  let s := kprint (cstr "usr/\n") s
  let s := kprint_colored (cstr "drwxr-xr-x  2 root root  4096 Sep 02 2025 ") 0x0B s
  let s := kprint (cstr "var/\n") s
  let s := kprint_colored (cstr "-rw-r--r--  1 root root  1024 Sep 02 2025 ") 0x07 s
  let s := kprint (cstr "readme.txt\n") s
  let s := kprint_colored (cstr "-rwxr-xr-x  1 root root  8192 Sep 02 2025 ") 0x0A s
  kprint (cstr "lamax64-1.0.0\n") s

/-- The cmd_pwd of the kernel. -/
def cmd_pwd (s : KState) : KState :=
  let s := kprint s.current_path s
  kprint (cstr "\n") s

/-- The cmd_uname of the kernel. -/
def cmd_uname (s : KState) : KState :=
  let s := kprint_colored (cstr "LAMAX64 1.0.0 x86_64 GNU/Linux-compatible\n") 0x0E s
  let s := kprint (cstr "Kernel: lamax64-1.0.0 #1 SMP\n") s
  let s := kprint (cstr "Architecture: x86_64\n") s
  kprint (cstr "CPU: Intel/AMD 64-bit\n") s

/-- The cmd_ver of the kernel. -/
def cmd_ver (s : KState) : KState :=
  let s := kprint_colored (cstr "LAMAX64 Operating System\n") 0x0E s
  let s := kprint (cstr "Version 1.0.0 (Build 20250902)\n") s
  kprint (cstr "Copyright (c) 2025 LAMAX64 Project\n") s

/-- The cmd_ps of the kernel. -/
def cmd_ps (s : KState) : KState :=
  let s := kprint_colored (cstr "PID  PPID CMD\n") 0x0E s
  let s := kprint (cstr "  1     0 init\n") s
  let s := kprint (cstr "  2     1 kernel\n") s
  let s := kprint (cstr "  3     2 shell\n") s
  kprint (cstr "  4     1 idle\n") s

/-- The cmd_top of the kernel. -/
def cmd_top (s : KState) : KState :=
  let s := kprint_colored (cstr "LAMAX64 System Monitor:\n\n") 0x0E s
  let s := kprint (cstr "CPU Usage:    31 purna\n") s
  let s := kprint (cstr "Memory:       bu os o kadar gelismis degil\n") s
  let s := kprint (cstr "Uptime:       reis bu komutu 2.0.0 da gir\n") s
  let s := kprint (cstr "Processes:    2.0.0 da gelecek valla\n") s
  kprint (cstr "Load average: 2.0.0 da gelecek\n") s

/-- The cmd_date of the kernel. -/
def cmd_date (s : KState) : KState :=
  kprint_colored (cstr "Tue Sep  2 14:30:45 UTC 2025\n") 0x0E s

/-- The cmd_ipconfig of the kernel. -/
def cmd_ipconfig (s : KState) : KState :=
  let s := kprint_colored (cstr "Network Configuration:\n\n") 0x0E s
  let s := kprint (cstr "eth0: Link encap:Ethernet\n") s
  let s := kprint
    (cstr "      inet addr:192.168.1.100  Bcast:192.168.1.255  Mask:255.255.255.0\n") s
  let s := kprint (cstr "      UP BROADCAST RUNNING MULTICAST  MTU:1500  Metric:1\n") s
  let s := kprint (cstr "      RX packets:0 errors:0 dropped:0 overruns:0 frame:0\n") s
  kprint (cstr "      TX packets:0 errors:0 dropped:0 overruns:0 carrier:0\n") s

/-- The messages of cmd_shutdown, printed before its loop. -/
def cmd_shutdown_messages (s : KState) : KState :=
  let s := kprint_colored (cstr "System is shutting down...\n") 0x0C s
  let s := kprint (cstr "Stopping services...\n") s
  let s := kprint (cstr "Unmounting filesystems...\n") s
  kprint (cstr "System halted.\n") s

/-- The cmd_shutdown of the kernel: the four messages, then `while(1) {}`. -/
def cmd_shutdown (fuel : Nat) (s : KState) : Run :=
  while_one (fun t => t) fuel (cmd_shutdown_messages s)

/-- The messages of cmd_reboot, printed before its loop. -/
def cmd_reboot_messages (s : KState) : KState :=
  let s := kprint_colored (cstr "System is rebooting...\n") 0x0C s
  let s := kprint (cstr "Stopping services...\n") s
  kprint (cstr "Restarting...\n") s

/-- The cmd_reboot of the kernel: the three messages, then `while(1) {}`. -/
def cmd_reboot (fuel : Nat) (s : KState) : Run :=
  while_one (fun t => t) fuel (cmd_reboot_messages s)

/-- The `cd` branch of execute_command.  The `int` indices
strlen(current_path) - 1, len and len + 1 are not negative where they are used:
the copy has the length of path, which the guard has found above 0. -/
def cmd_cd (cmd : List Int) (s : KState) : KState :=
  let path := cmd.drop 3
  let s := kprint_colored (cstr "Changing directory to: ") 0x07 s
  let s := kprint path s
  let s := kprint (cstr "\n") s
  if strlen path > 0 ∧ strlen path < 200 then
    let s : KState := { s with current_path := strcpy s.current_path path }
    if read_char s.current_path (strlen s.current_path - 1) ≠ 47 then
      let len := strlen s.current_path
      { s with current_path :=
          store (store s.current_path len.toNat 47) (len + 1).toNat 0 }
    else s
  else s

/-- A call that comes back to its caller in state s. -/
def done (s : KState) : Run := { state := s, returned := true }

/-- The execute_command of the kernel; `fuel` bounds the rounds of the loops
of cmd_shutdown and cmd_reboot. -/
def execute_command (fuel : Nat) (cmd : List Int) (s : KState) : Run :=
  if strcmp cmd (cstr "help") = 0 then done (cmd_help s)
  else if strcmp cmd (cstr "clear") = 0 ∨ strcmp cmd (cstr "cls") = 0 then done (cmd_clear s)
  else if strcmp cmd (cstr "ls") = 0 ∨ strcmp cmd (cstr "dir") = 0 then done (cmd_ls s)
  else if strcmp cmd (cstr "pwd") = 0 then done (cmd_pwd s)
  else if strcmp cmd (cstr "uname") = 0 then done (cmd_uname s)
  else if strcmp cmd (cstr "ver") = 0 then done (cmd_ver s)
  else if strcmp cmd (cstr "ps") = 0 then done (cmd_ps s)
  else if strcmp cmd (cstr "top") = 0 then done (cmd_top s)
  else if strcmp cmd (cstr "date") = 0 then done (cmd_date s)
  else if strcmp cmd (cstr "ipconfig") = 0 then done (cmd_ipconfig s)
  else if strcmp cmd (cstr "shutdown") = 0 then cmd_shutdown fuel s
  else if strcmp cmd (cstr "reboot") = 0 then cmd_reboot fuel s
  else if strcmp cmd (cstr "exit") = 0 then
    done (kprint_colored (cstr "Exiting to shell...\n") 0x0E s)
  else if strncmp cmd (cstr "cd ") 3 = 0 then done (cmd_cd cmd s)
  else if strncmp cmd (cstr "mkdir ") 6 = 0 then
    let dirname := cmd.drop 6
    let s := kprint_colored (cstr "Creating directory: ") 0x0A s
    let s := kprint dirname s
    done (kprint (cstr "\n") s)
  else if strncmp cmd (cstr "cat ") 4 = 0 ∨ strncmp cmd (cstr "type ") 5 = 0 then
    let filename := if char_at cmd 0 = 99 then cmd.drop 4 else cmd.drop 5
    let s := kprint_colored (cstr "Displaying file: ") 0x07 s
    let s := kprint filename s
    let s := kprint (cstr "\n") s
    let s := kprint_colored (cstr "This is a sample file content.\n") 0x0F s
    done (kprint (cstr "LAMAX64 OS file system simulation.\n") s)
  else if strncmp cmd (cstr "ping ") 5 = 0 then
    let host := cmd.drop 5
    let s := kprint_colored (cstr "PING ") 0x0E s
    let s := kprint host s
    let s := kprint (cstr " (192.168.1.1): 56 data bytes\n") s
    let s := kprint (cstr "64 bytes from 192.168.1.1: icmp_seq=1 ttl=64 time=1.234 ms\n") s
    let s := kprint (cstr "64 bytes from 192.168.1.1: icmp_seq=2 ttl=64 time=1.156 ms\n") s
    done (kprint (cstr "64 bytes from 192.168.1.1: icmp_seq=3 ttl=64 time=1.089 ms\n") s)
  else if strcmp cmd (cstr "netstat") = 0 then
    let s := kprint_colored (cstr "Active Internet connections:\n") 0x0E s
    let s := kprint
      (cstr "Proto Recv-Q Send-Q Local Address          Foreign Address        State\n") s
    let s := kprint
      (cstr "tcp        0      0 0.0.0.0:22             0.0.0.0:*              LISTEN\n") s
    done (kprint
      (cstr "tcp        0      0 127.0.0.1:25           0.0.0.0:*              LISTEN\n") s)
  else if strlen cmd > 0 then
    let s := kprint_colored (cstr "Command not found: ") 0x0C s
    let s := kprint cmd s
    done (kprint (cstr "\nType 'help' for available commands.\n") s)
  else done s

/-- A blank screen with the cursor at the top left and current_path "/". -/
def initial_state : KState :=
  { vga_buffer := fun i => if i % 2 = 0 then 32 else 7, cursor_x := 0, cursor_y := 0,
    current_path := 47 :: List.replicate 255 0 }

end Kernel

/-! ## String routines of the boot shell (boot/shell.c) -/

namespace Shell

/-- The loop of strlen in boot/shell.c, `while(str[len]) len++;`, run for at
most `rounds` rounds from the counter value `len`; `len` is a 32-bit `int`, so
the increment wraps. -/
def strlen_loop (str : List Int) : Nat → Int → Int
  | 0, len => len
  | rounds + 1, len =>
    if read_char str len ≠ 0 then strlen_loop str rounds (wrap_int (len + 1)) else len

/-- The strlen of boot/shell.c:
`int len = 0; while(str[len]) len++; return len;`
str.length + 1 rounds are enough for the loop to be left: it stops at the
first NUL, at the end of the list, or when the counter has wrapped. -/
def strlen (str : List Int) : Int := strlen_loop str (str.length + 1) 0

/-- The strcpy of boot/shell.c, returning the memory at `dest`:
`while(*src) { *dest++ = *src++; } *dest = 0;` -/
def strcpy : List Int → List Int → List Int
  | dest, [] => 0 :: dest.tail
  | dest, c :: src => if c ≠ 0 then c :: strcpy dest.tail src else 0 :: dest.tail

end Shell

/-- The string held at the start of a buffer: the characters in front of the
first NUL. -/
def string_at (buf : List Int) : List Int := buf.take (first_nul buf)

/-- A 16-byte destination buffer filled with 'x' (120). -/
def sample_dest : List Int := List.replicate 16 120

/-- A screen full of 'A' (65) on attribute 0x4F, cursor at column 17, row 9,
current_path "/". -/
def Kernel.dirty_state : Kernel.KState :=
  { vga_buffer := fun i => if i % 2 = 0 then 65 else 0x4F, cursor_x := 17, cursor_y := 9,
    current_path := 47 :: List.replicate 255 0 }

/-! # Theorems -/

/-! ## ACPI checksum -/

theorem acpi_find_table_scan_eq (mem : AcpiMemory) (sig : List Nat)
    (entries : List Nat) (index found : Nat) (h : found ≤ index) :
    acpi_find_table_scan mem sig entries index found =
      match (acpi_matching mem sig entries).get? (index - found) with
      | some e => .ok e
      | none => .error .NotFound := by
  induction entries generalizing found with
  | nil => simp [acpi_find_table_scan, acpi_matching]
  | cons e rest ih =>
    by_cases hm : (mem e).signature = sig
    · by_cases hf : found = index
      · subst hf
        simp [acpi_find_table_scan, acpi_matching, hm]
      · have hlt : found + 1 ≤ index := by omega
        have hsub : index - found = (index - (found + 1)) + 1 := by omega
        simp only [acpi_find_table_scan, hm, hf, if_true, if_false]
        rw [ih (found + 1) hlt, hsub]
        simp [acpi_matching, hm]
    · simp only [acpi_find_table_scan, hm, if_false]
      rw [ih found h]
      simp [acpi_matching, hm]

theorem acpi_matching_signature (mem : AcpiMemory) (sig : List Nat)
    (entries : List Nat) (e : Nat) (h : e ∈ acpi_matching mem sig entries) :
    (mem e).signature = sig := by
  simpa [acpi_matching] using (List.mem_filter.mp h).2

/-- C2: with `entries` the cached root entries and c the number of entries
whose table header signature equals `sig`, acpi_find_table(sig, k) is NotFound
for every k >= c and, for k < c, is the k-th entry (0-based, in entry order)
among those whose header signature equals `sig`; that table carries `sig`. -/
theorem acpi_find_table_contract (mem : AcpiMemory) (root : acpi_root_t)
    (entries : List Nat) (sig : List Nat) (k : Nat)
    (hroot : acpi_root_entries root = some entries) :
    (acpi_matching mem sig entries).length =
        entries.countP (fun e => decide ((mem e).signature = sig)) ∧
    ((acpi_matching mem sig entries).length ≤ k →
        acpi_find_table mem root sig k = .error .NotFound) ∧
    (∀ hk : k < (acpi_matching mem sig entries).length,
        acpi_find_table mem root sig k = .ok ((acpi_matching mem sig entries).get ⟨k, hk⟩) ∧
        (mem ((acpi_matching mem sig entries).get ⟨k, hk⟩)).signature = sig) := by
  have hscan := acpi_find_table_scan_eq mem sig entries k 0 (Nat.zero_le k)
  simp only [Nat.sub_zero] at hscan
  refine ⟨?_, ?_, ?_⟩
  · simp [acpi_matching, List.countP_eq_length_filter]
  · intro hge
    simp only [acpi_find_table, hroot, hscan]
    rw [List.get?_eq_none.mpr hge]
  · intro hk
    refine ⟨?_, acpi_matching_signature mem sig entries _ (List.get_mem _ _ _)⟩
    simp only [acpi_find_table, hroot, hscan]
    rw [List.get?_eq_get hk]

/-- C2, witness: in the sample root ("APIC", "MCFG", "APIC") the second "APIC"
table is found at index 1 and index 2 is NotFound. -/
theorem acpi_find_table_contract_witness :
    acpi_root_entries acpi_sample_root = some [0x1000, 0x2000, 0x3000] ∧
    acpi_find_table acpi_sample_memory acpi_sample_root [65, 80, 73, 67] 1 = .ok 0x3000 ∧
    acpi_find_table acpi_sample_memory acpi_sample_root [65, 80, 73, 67] 2 =
      .error .NotFound :=
  ⟨rfl,
   ((acpi_find_table_contract acpi_sample_memory acpi_sample_root
      [0x1000, 0x2000, 0x3000] [65, 80, 73, 67] 1 rfl).2.2 (by decide)).1,
   (acpi_find_table_contract acpi_sample_memory acpi_sample_root
      [0x1000, 0x2000, 0x3000] [65, 80, 73, 67] 2 rfl).2.1 (by decide)⟩

/-! ## PCI capability walk -/

theorem pci_cap_walk_from_length (cfg : ConfigBytes) (budget offset : Nat)
    (acc : List Nat) :
    (pci_cap_walk_from cfg budget offset acc).visited.length ≤ acc.length + budget := by
  induction budget generalizing offset acc with
  | zero =>
    simp only [pci_cap_walk_from]
    split <;> simp
  | succ b ih =>
    simp only [pci_cap_walk_from]
    split
    · simp
    · have := ih (pci_cap_next cfg offset) (offset :: acc)
      simp only [List.length_cons] at this
      omega

/-- The walk from the k-th chain entry, when the next `budget` entries are all
non-zero, uses the whole budget and reports IoError. -/
theorem pci_cap_walk_from_nonzero (cfg : ConfigBytes) (budget k : Nat)
    (acc : List Nat) (hnz : ∀ n, pci_cap_chain cfg n ≠ 0) :
    (pci_cap_walk_from cfg budget (pci_cap_chain cfg k) acc).error = some .IoError ∧
    (pci_cap_walk_from cfg budget (pci_cap_chain cfg k) acc).visited.length =
      acc.length + budget := by
  induction budget generalizing k acc with
  | zero =>
    simp only [pci_cap_walk_from]
    simp [hnz k]
  | succ b ih =>
    simp only [pci_cap_walk_from]
    have h := ih (k + 1) (pci_cap_chain cfg k :: acc)
    simp only [hnz k, if_false]
    simp only [pci_cap_chain, List.length_cons] at h
    refine ⟨h.1, ?_⟩
    rw [h.2]; omega

/-- The walk from the k-th chain entry of a chain that reaches the sentinel at
position n, with enough budget left, visits entries k .. n-1 and succeeds. -/
theorem pci_cap_walk_from_sentinel (cfg : ConfigBytes) (n : Nat)
    (hnz : ∀ j, j < n → pci_cap_chain cfg j ≠ 0) (hend : pci_cap_chain cfg n = 0)
    (d k budget : Nat) (acc : List Nat) (hk : k + d = n) (hb : d ≤ budget) :
    pci_cap_walk_from cfg budget (pci_cap_chain cfg k) acc =
      { visited := acc.reverse ++ (List.range' k d).map (pci_cap_chain cfg),
        error := none } := by
  induction d generalizing k budget acc with
  | zero =>
    have : k = n := by omega
    subst this
    cases budget <;> simp [pci_cap_walk_from, hend]
  | succ d ih =>
    have hkn : k < n := by omega
    cases budget with
    | zero => omega
    | succ b =>
      simp only [pci_cap_walk_from]
      simp only [hnz k hkn, if_false]
      have h := ih (k + 1) b (pci_cap_chain cfg k :: acc) (by omega) (by omega)
      simp only [pci_cap_chain] at h
      rw [h]
      simp [List.range'_succ]

/-- Once an entry points back to an earlier entry of the chain, no entry of the
chain is the sentinel. -/
theorem pci_cap_chain_cycle_nonzero (cfg : ConfigBytes) (i j : Nat) (hij : i ≤ j)
    (hnz : ∀ k, k ≤ j → pci_cap_chain cfg k ≠ 0)
    (hback : pci_cap_next cfg (pci_cap_chain cfg j) = pci_cap_chain cfg i) :
    ∀ n, pci_cap_chain cfg n ≠ 0 := by
  have hshift : ∀ m, pci_cap_chain cfg (j + 1 + m) = pci_cap_chain cfg (i + m) := by
    intro m
    induction m with
    | zero => simpa [pci_cap_chain] using hback
    | succ m ih =>
      show pci_cap_next cfg (pci_cap_chain cfg (j + 1 + m)) =
        pci_cap_next cfg (pci_cap_chain cfg (i + m))
      rw [ih]
  intro n
  induction n using Nat.strong_induction_on with
  | _ n ih =>
    by_cases hn : n ≤ j
    · exact hnz n hn
    · have hn2 : n = j + 1 + (n - (j + 1)) := by omega
      rw [hn2, hshift]
      exact ih _ (by omega)

theorem pci_cap_chain_nodup (cfg : ConfigBytes) (n : Nat)
    (hnz : ∀ j, j < n → pci_cap_chain cfg j ≠ 0) (hend : pci_cap_chain cfg n = 0) :
    ((List.range n).map (pci_cap_chain cfg)).Nodup := by
  have hshift : ∀ a b m, pci_cap_chain cfg a = pci_cap_chain cfg b →
      pci_cap_chain cfg (a + m) = pci_cap_chain cfg (b + m) := by
    intro a b m h
    induction m with
    | zero => simpa using h
    | succ m ih =>
      show pci_cap_next cfg (pci_cap_chain cfg (a + m)) =
        pci_cap_next cfg (pci_cap_chain cfg (b + m))
      rw [ih]
  have hinj : ∀ a b, a < b → b < n → pci_cap_chain cfg a ≠ pci_cap_chain cfg b := by
    intro a b hab hbn heq
    have h := hshift a b (n - b) heq
    rw [show b + (n - b) = n by omega, hend] at h
    exact hnz (a + (n - b)) (by omega) h
  rw [List.nodup_map_iff_inj_on (List.nodup_range n)]
  intro a ha b hb heq
  simp only [List.mem_range] at ha hb
  rcases Nat.lt_trichotomy a b with h | h | h
  · exact absurd heq (hinj a b h hb)
  · exact h
  · exact absurd heq.symm (hinj b a h ha)

/-- C3: for a function whose capability-list bit is set, the walk visits at
most PCI_MAX_CAPABILITIES entries; when some entry's "next" byte points back to
an earlier entry of the chain (a cycle) the walk stops after exactly
PCI_MAX_CAPABILITIES entries and reports IoError; when the chain has n <= 32
entries and then the sentinel 0, the walk succeeds and visits exactly those n
entries, in order and each once. -/
theorem pci_cap_walk_contract (cfg : ConfigBytes) (status : Nat)
    (hbit : status &&& PCI_STATUS_CAP_LIST ≠ 0) :
    (pci_walk_capabilities cfg status).visited.length ≤ PCI_MAX_CAPABILITIES ∧
    (∀ i j, i ≤ j → (∀ k, k ≤ j → pci_cap_chain cfg k ≠ 0) →
        pci_cap_next cfg (pci_cap_chain cfg j) = pci_cap_chain cfg i →
        (pci_walk_capabilities cfg status).error = some .IoError ∧
        (pci_walk_capabilities cfg status).visited.length = PCI_MAX_CAPABILITIES) ∧
    (∀ n, n ≤ PCI_MAX_CAPABILITIES → (∀ j, j < n → pci_cap_chain cfg j ≠ 0) →
        pci_cap_chain cfg n = 0 →
        pci_walk_capabilities cfg status =
          { visited := (List.range n).map (pci_cap_chain cfg), error := none } ∧
        ((List.range n).map (pci_cap_chain cfg)).Nodup) := by
  have hw : pci_walk_capabilities cfg status =
      pci_cap_walk_from cfg PCI_MAX_CAPABILITIES (pci_cap_chain cfg 0) [] := by
    simp [pci_walk_capabilities, hbit, pci_cap_chain]
  refine ⟨?_, ?_, ?_⟩
  · rw [hw]
    simpa using pci_cap_walk_from_length cfg PCI_MAX_CAPABILITIES (pci_cap_chain cfg 0) []
  · intro i j hij hnz hback
    have hall := pci_cap_chain_cycle_nonzero cfg i j hij hnz hback
    have h := pci_cap_walk_from_nonzero cfg PCI_MAX_CAPABILITIES 0 [] hall
    rw [hw]
    simpa using h
  · intro n hn hnz hend
    refine ⟨?_, pci_cap_chain_nodup cfg n hnz hend⟩
    rw [hw, pci_cap_walk_from_sentinel cfg n hnz hend n 0 PCI_MAX_CAPABILITIES []
      (by omega) hn]
    simp [List.range_eq_range']

/-- C3, witness: on the chain 0x40 -> 0x50 -> 0x40 the walk reports IoError
after 32 entries; on the chain 0x40 -> 0x50 -> 0x60 -> 0 it visits the three
entries and succeeds. -/
theorem pci_cap_walk_contract_witness :
    (pci_walk_capabilities pci_cyclic_config 0x10).error = some .IoError ∧
    (pci_walk_capabilities pci_cyclic_config 0x10).visited.length = 32 ∧
    pci_walk_capabilities pci_acyclic_config 0x10 =
      { visited := [0x40, 0x50, 0x60], error := none } :=
  ⟨((pci_cap_walk_contract pci_cyclic_config 0x10 (by decide)).2.1 0 1 (by decide)
      (by intro k hk; interval_cases k <;> decide) (by decide)).1,
   ((pci_cap_walk_contract pci_cyclic_config 0x10 (by decide)).2.1 0 1 (by decide)
      (by intro k hk; interval_cases k <;> decide) (by decide)).2,
   ((pci_cap_walk_contract pci_acyclic_config 0x10 (by decide)).2.2 3 (by decide)
      (by intro j hj; interval_cases j <;> decide) (by decide)).1⟩

/-! ## BAR sizing -/

theorem sim_reg_write_back (l w r : Nat) :
    (((l &&& w) ||| r) &&& w) ||| r = (l &&& w) ||| r := by
  apply Nat.eq_of_testBit_eq
  intro i
  simp only [Nat.testBit_or, Nat.testBit_and]
  cases Nat.testBit l i <;> cases Nat.testBit w i <;> cases Nat.testBit r i <;> rfl

theorem pci_read_write_config32 (hw : ConfigSpace) (bus slot func offset value : Nat)
    (b s f o : Nat) :
    pci_read_config32 (pci_write_config32 hw bus slot func offset value) b s f o =
      if b = bus ∧ s = slot ∧ f = func ∧ o = offset then
        (value &&& (hw b s f o).wmask) ||| (hw b s f o).ro
      else pci_read_config32 hw b s f o := by
  unfold pci_read_config32 pci_write_config32
  split <;> simp [sim_reg.value]

theorem pci_write_config32_wmask (hw : ConfigSpace) (bus slot func offset value : Nat)
    (b s f o : Nat) :
    (pci_write_config32 hw bus slot func offset value b s f o).wmask = (hw b s f o).wmask := by
  unfold pci_write_config32
  split <;> rfl

theorem pci_write_config32_ro (hw : ConfigSpace) (bus slot func offset value : Nat)
    (b s f o : Nat) :
    (pci_write_config32 hw bus slot func offset value b s f o).ro = (hw b s f o).ro := by
  unfold pci_write_config32
  split <;> rfl

/-- Writing back the value read from a register restores what every register
holds, whatever was written to that register in between. -/
theorem pci_restore_config32 (hw hw1 : ConfigSpace) (bus slot func offset : Nat)
    (hm : ∀ b s f o, (hw1 b s f o).wmask = (hw b s f o).wmask)
    (hr : ∀ b s f o, (hw1 b s f o).ro = (hw b s f o).ro)
    (hother : ∀ b s f o, ¬ (b = bus ∧ s = slot ∧ f = func ∧ o = offset) →
      pci_read_config32 hw1 b s f o = pci_read_config32 hw b s f o)
    (b s f o : Nat) :
    pci_read_config32
      (pci_write_config32 hw1 bus slot func offset (pci_read_config32 hw bus slot func offset))
      b s f o = pci_read_config32 hw b s f o := by
  rw [pci_read_write_config32]
  split
  · next h =>
    obtain ⟨rfl, rfl, rfl, rfl⟩ := h
    rw [hm, hr]
    simp only [pci_read_config32, sim_reg.value]
    exact sim_reg_write_back _ _ _
  · next h => exact hother b s f o h

theorem pci_get_bar_size_restores (hw : ConfigSpace) (device : pci_device_t)
    (bar_index : Nat) (b s f o : Nat) :
    pci_read_config32 (pci_get_bar_size hw device bar_index).2 b s f o =
      pci_read_config32 hw b s f o := by
  have hone : ∀ b s f o,
      pci_read_config32
        (pci_write_config32
          (pci_write_config32 hw device.bus device.slot device.function
            (PCI_BAR0_OFFSET + 4 * bar_index) 0xFFFFFFFF)
          device.bus device.slot device.function (PCI_BAR0_OFFSET + 4 * bar_index)
          (pci_read_config32 hw device.bus device.slot device.function
            (PCI_BAR0_OFFSET + 4 * bar_index))) b s f o = pci_read_config32 hw b s f o := by
    intro b s f o
    apply pci_restore_config32
    · intro b s f o; exact pci_write_config32_wmask _ _ _ _ _ _ _ _ _ _
    · intro b s f o; exact pci_write_config32_ro _ _ _ _ _ _ _ _ _ _
    · intro b s f o h
      rw [pci_read_write_config32, if_neg h]
  unfold pci_get_bar_size
  split
  · rfl
  · simp only []
    split
    · exact hone b s f o
    · split
      · split
        · exact hone b s f o
        · apply pci_restore_config32
          · intro b s f o
            simp only [pci_write_config32_wmask]
          · intro b s f o
            simp only [pci_write_config32_ro]
          · intro b s f o h
            have hlow : ∀ b s f o, ¬ (b = device.bus ∧ s = device.slot ∧
                f = device.function ∧ o = PCI_BAR0_OFFSET + 4 * bar_index) →
                pci_read_config32
                  (pci_write_config32 hw device.bus device.slot device.function
                    (PCI_BAR0_OFFSET + 4 * bar_index) 0xFFFFFFFF) b s f o =
                  pci_read_config32 hw b s f o := by
              intro b s f o h
              rw [pci_read_write_config32, if_neg h]
            rw [← hlow b s f o h]
            apply pci_restore_config32
            · intro b s f o
              simp only [pci_write_config32_wmask]
            · intro b s f o
              simp only [pci_write_config32_ro]
            · intro b s f o h2
              rw [pci_read_write_config32, if_neg h2]
      · exact hone b s f o

theorem and_or_mask (l w r m : Nat) (h : w &&& m = 0) :
    ((l &&& w) ||| r) &&& m = r &&& m := by
  rw [Nat.and_comm, Nat.and_or_distrib_left, Nat.and_comm m (l &&& w), Nat.and_assoc, h,
    Nat.and_comm m r]
  simp

/-- C4: for a 32-bit memory BAR whose address bits below bit 12 are hardwired
to zero (bits 12..31 writable, flag bits hardwired), pci_get_bar_size returns
exactly 4096 whatever value the BAR held; and for every configuration space,
device and BAR index, every register holds after the probe the value it held
before it, whether the probe reports a size or fails with 0. -/
theorem pci_get_bar_size_contract (hw : ConfigSpace) (device : pci_device_t)
    (bar_index : Nat) :
    (bar_index < 6 →
      (hw device.bus device.slot device.function
        (PCI_BAR0_OFFSET + 4 * bar_index)).wmask = 0xFFFFF000 →
      (hw device.bus device.slot device.function
        (PCI_BAR0_OFFSET + 4 * bar_index)).ro < 16 →
      (hw device.bus device.slot device.function
        (PCI_BAR0_OFFSET + 4 * bar_index)).ro &&& PCI_ADDRESS_SPACE_IO = 0 →
      (hw device.bus device.slot device.function
        (PCI_BAR0_OFFSET + 4 * bar_index)).ro &&& 0x06 ≠ PCI_ADDRESS_MEM_64BIT →
      (pci_get_bar_size hw device bar_index).1 = 4096) ∧
    (∀ b s f o,
      pci_read_config32 (pci_get_bar_size hw device bar_index).2 b s f o =
        pci_read_config32 hw b s f o) := by
  refine ⟨?_, pci_get_bar_size_restores hw device bar_index⟩
  intro hidx hw_mask hro hmem h32
  have horig1 : pci_read_config32 hw device.bus device.slot device.function
      (PCI_BAR0_OFFSET + 4 * bar_index) &&& PCI_ADDRESS_SPACE_IO = 0 := by
    simp only [pci_read_config32, sim_reg.value, hw_mask]
    rw [and_or_mask _ _ _ _ (by decide)]
    exact hmem
  have horig6 : pci_read_config32 hw device.bus device.slot device.function
      (PCI_BAR0_OFFSET + 4 * bar_index) &&& 0x06 ≠ PCI_ADDRESS_MEM_64BIT := by
    simp only [pci_read_config32, sim_reg.value, hw_mask]
    rw [and_or_mask _ _ _ _ (by decide)]
    exact h32
  have hprobe : pci_read_config32
      (pci_write_config32 hw device.bus device.slot device.function
        (PCI_BAR0_OFFSET + 4 * bar_index) 0xFFFFFFFF)
      device.bus device.slot device.function (PCI_BAR0_OFFSET + 4 * bar_index)
        &&& 0xFFFFFFF0 = 0xFFFFF000 := by
    rw [pci_read_write_config32, if_pos ⟨rfl, rfl, rfl, rfl⟩, hw_mask]
    generalize (hw device.bus device.slot device.function
      (PCI_BAR0_OFFSET + 4 * bar_index)).ro = r at hro
    interval_cases r <;> decide
  unfold pci_get_bar_size
  rw [if_neg (by omega)]
  simp only []
  rw [if_neg (by simpa using horig1), if_neg horig6, hprobe]
  show lowest_set_bit 32 4294963200 = 4096
  decide

/-- C4, witness: the sample BAR 0 (bits 12..31 writable, holding 0xFEBC0000)
is sized as 4096 and reads 0xFEBC0000 again afterwards. -/
theorem pci_get_bar_size_contract_witness :
    (pci_get_bar_size pci_sample_hw pci_sample_device 0).1 = 4096 ∧
    pci_read_config32 (pci_get_bar_size pci_sample_hw pci_sample_device 0).2 0 3 0 0x10 =
      0xFEBC0000 :=
  ⟨(pci_get_bar_size_contract pci_sample_hw pci_sample_device 0).1
      (by decide) (by decide) (by decide) (by decide) (by decide),
   (pci_get_bar_size_contract pci_sample_hw pci_sample_device 0).2 0 3 0 0x10⟩

/-! ## IOMMU reference counting -/

/-- The reference count invariant of a domain: the device set has no
repetition and the count is its size. -/
theorem iommu_attach_keeps_count (d : iommu_domain_t) (dev : iommu_device_t)
    (h : d.attached.Nodup ∧ d.ref_count = d.attached.length) :
    (iommu_attach_device d dev).2.attached.Nodup ∧
    (iommu_attach_device d dev).2.ref_count = (iommu_attach_device d dev).2.attached.length := by
  unfold iommu_attach_device
  by_cases hm : dev ∈ d.attached
  · simpa [hm] using h
  · simp [hm, h.1, h.2]

theorem iommu_detach_keeps_count (d : iommu_domain_t) (dev : iommu_device_t)
    (h : d.attached.Nodup ∧ d.ref_count = d.attached.length) :
    (iommu_detach_device d dev).2.attached.Nodup ∧
    (iommu_detach_device d dev).2.ref_count = (iommu_detach_device d dev).2.attached.length := by
  unfold iommu_detach_device
  by_cases hm : dev ∈ d.attached
  · simp only [hm, if_true]
    refine ⟨h.1.erase dev, ?_⟩
    rw [List.length_erase_of_mem hm, h.2]
  · simpa [hm] using h

theorem iommu_map_attached (d : iommu_domain_t) (p s f : Nat) :
    (iommu_map d p s f).2.attached = d.attached ∧
    (iommu_map d p s f).2.ref_count = d.ref_count ∧
    (iommu_map d p s f).2.type = d.type := by
  unfold iommu_map
  split
  · exact ⟨rfl, rfl, rfl⟩
  · split
    · exact ⟨rfl, rfl, rfl⟩
    · split <;> exact ⟨rfl, rfl, rfl⟩
    · exact ⟨rfl, rfl, rfl⟩

theorem iommu_unmap_attached (d : iommu_domain_t) (i s : Nat) :
    (iommu_unmap d i s).2.attached = d.attached ∧
    (iommu_unmap d i s).2.ref_count = d.ref_count ∧
    (iommu_unmap d i s).2.type = d.type := by
  unfold iommu_unmap
  split <;> exact ⟨rfl, rfl, rfl⟩

theorem iommu_step_keeps_count (d : iommu_domain_t) (op : iommu_op)
    (h : d.attached.Nodup ∧ d.ref_count = d.attached.length) :
    (iommu_step d op).attached.Nodup ∧
    (iommu_step d op).ref_count = (iommu_step d op).attached.length := by
  cases op with
  | attach dev => exact iommu_attach_keeps_count d dev h
  | detach dev => exact iommu_detach_keeps_count d dev h
  | map p s f =>
    simp only [iommu_step]
    rw [(iommu_map_attached d p s f).1, (iommu_map_attached d p s f).2.1]
    exact h
  | unmap i s =>
    simp only [iommu_step]
    rw [(iommu_unmap_attached d i s).1, (iommu_unmap_attached d i s).2.1]
    exact h
  | flush_tlb => exact h
  | flush_cache => exact h
  | set_dma_mask m => exact h

theorem iommu_run_keeps_count (ops : List iommu_op) (d : iommu_domain_t)
    (h : d.attached.Nodup ∧ d.ref_count = d.attached.length) :
    (iommu_run d ops).attached.Nodup ∧
    (iommu_run d ops).ref_count = (iommu_run d ops).attached.length := by
  induction ops generalizing d with
  | nil => exact h
  | cons op rest ih =>
    simp only [iommu_run, List.foldl_cons]
    exact ih (iommu_step d op) (iommu_step_keeps_count d op h)

/-- C5: a successful iommu_attach_device followed by iommu_detach_device of the
same device on the same domain succeeds and leaves ref_count at its value
before the attach; and after every sequence of operations on a freshly
allocated domain, ref_count is the number of attached devices (the device set
has no repetition and ref_count is its size), a property that every single
operation keeps. -/
theorem iommu_ref_count_contract :
    (∀ (d : iommu_domain_t) (dev : iommu_device_t),
      (iommu_attach_device d dev).1 = true →
        (iommu_detach_device (iommu_attach_device d dev).2 dev).1 = true ∧
        (iommu_detach_device (iommu_attach_device d dev).2 dev).2.ref_count = d.ref_count ∧
        (iommu_detach_device (iommu_attach_device d dev).2 dev).2.attached = d.attached) ∧
    (∀ (type : iommu_domain_type_t) (dma_mask root width : Nat) (ops : List iommu_op),
      (iommu_run (iommu_domain_alloc type dma_mask root width) ops).attached.Nodup ∧
      (iommu_run (iommu_domain_alloc type dma_mask root width) ops).ref_count =
        (iommu_run (iommu_domain_alloc type dma_mask root width) ops).attached.length) ∧
    (∀ (d : iommu_domain_t) (op : iommu_op),
      d.attached.Nodup ∧ d.ref_count = d.attached.length →
        (iommu_step d op).attached.Nodup ∧
        (iommu_step d op).ref_count = (iommu_step d op).attached.length) := by
  refine ⟨?_, ?_, iommu_step_keeps_count⟩
  · intro d dev hok
    unfold iommu_attach_device at hok ⊢
    by_cases hm : dev ∈ d.attached
    · simp [hm] at hok
    · simp [hm, iommu_detach_device]
  · intro type dma_mask root width ops
    apply iommu_run_keeps_count
    simp [iommu_domain_alloc]

/-- C5, witness: on the sample domain, attaching the sample device succeeds and
detaching it again brings ref_count back to 0. -/
theorem iommu_ref_count_contract_witness :
    (iommu_attach_device iommu_sample_domain iommu_sample_device).1 = true ∧
    (iommu_attach_device iommu_sample_domain iommu_sample_device).2.ref_count = 1 ∧
    (iommu_detach_device (iommu_attach_device iommu_sample_domain iommu_sample_device).2
      iommu_sample_device).2.ref_count = iommu_sample_domain.ref_count :=
  ⟨by decide, by decide,
   (iommu_ref_count_contract.1 iommu_sample_domain iommu_sample_device (by decide)).2.1⟩

/-! ## IOMMU mappings -/

theorem iommu_range_free_disjoint (ms : List iommu_mapping_t) (iova size : Nat)
    (h : iommu_range_free ms iova size = true) (phys flags : Nat) :
    ∀ m ∈ ms, iommu_disjoint
      { virt_address := iova, phys_address := phys, size := size, flags := flags } m := by
  intro m hm x hx
  simp only [iommu_range_free, List.all_eq_true] at h
  have h1 := h m hm
  simp only [Bool.not_eq_true', Bool.and_eq_false_iff, decide_eq_false_iff_not] at h1
  simp only at hx
  omega

theorem iommu_find_free_iova_free (d : iommu_domain_t) (size iova : Nat)
    (h : iommu_find_free_iova d size = some iova) :
    iova + size ≤ d.dma_mask + 1 ∧ iommu_range_free d.mappings iova size = true := by
  unfold iommu_find_free_iova at h
  have := List.find?_some h
  simpa using this

theorem iommu_map_keeps_disjoint (d : iommu_domain_t) (p s f : Nat)
    (h : d.mappings.Pairwise iommu_disjoint) :
    (iommu_map d p s f).2.mappings.Pairwise iommu_disjoint := by
  unfold iommu_map
  split
  · exact h
  · split
    · exact h
    · split
      · exact h
      · next iova hfree =>
        simp only [List.pairwise_cons]
        exact ⟨iommu_range_free_disjoint _ _ _ (iommu_find_free_iova_free d s iova hfree).2 p f, h⟩
    · exact h

theorem iommu_unmap_keeps_disjoint (d : iommu_domain_t) (i s : Nat)
    (h : d.mappings.Pairwise iommu_disjoint) :
    (iommu_unmap d i s).2.mappings.Pairwise iommu_disjoint := by
  unfold iommu_unmap
  split
  · exact h.sublist (List.filter_sublist _)
  · exact h

theorem iommu_step_keeps_disjoint (d : iommu_domain_t) (op : iommu_op)
    (h : d.mappings.Pairwise iommu_disjoint) :
    (iommu_step d op).mappings.Pairwise iommu_disjoint := by
  cases op with
  | attach dev =>
    simp only [iommu_step, iommu_attach_device]
    split <;> exact h
  | detach dev =>
    simp only [iommu_step, iommu_detach_device]
    split <;> exact h
  | map p s f => exact iommu_map_keeps_disjoint d p s f h
  | unmap i s => exact iommu_unmap_keeps_disjoint d i s h
  | flush_tlb => exact h
  | flush_cache => exact h
  | set_dma_mask m => exact h

theorem iommu_run_keeps_disjoint (ops : List iommu_op) (d : iommu_domain_t)
    (h : d.mappings.Pairwise iommu_disjoint) :
    (iommu_run d ops).mappings.Pairwise iommu_disjoint := by
  induction ops generalizing d with
  | nil => exact h
  | cons op rest ih =>
    simp only [iommu_run, List.foldl_cons]
    exact ih (iommu_step d op) (iommu_step_keeps_disjoint d op h)

/-- A successful iommu_map on a DMA domain installs the returned range as a
live mapping in front of the earlier ones. -/
theorem iommu_map_dma_ok (d : iommu_domain_t) (p s f iova : Nat)
    (hdma : d.type = .IOMMU_DOMAIN_DMA) (hok : (iommu_map d p s f).1 = .ok iova) :
    (iommu_map d p s f).2.mappings =
      { virt_address := iova, phys_address := p, size := s, flags := f } :: d.mappings ∧
    (iommu_map d p s f).2.type = .IOMMU_DOMAIN_DMA ∧
    iommu_range_free d.mappings iova s = true := by
  unfold iommu_map at hok ⊢
  split
  · next h => simp [h] at hok
  · next h =>
    simp only [h, if_false, hdma] at hok ⊢
    split
    · next hn => simp [hn] at hok
    · next i hs =>
      simp only [hs, Except.ok.injEq] at hok
      subst hok
      exact ⟨rfl, rfl, (iommu_find_free_iova_free d s i hs).2⟩

/-- C6: after every sequence of operations on a freshly allocated DMA domain
the IOVA ranges of the live mappings are pairwise disjoint; and when two
iommu_map calls in a row on a DMA domain both succeed, the two returned ranges
are live together and share no address. -/
theorem iommu_map_disjoint_contract :
    (∀ (dma_mask root width : Nat) (ops : List iommu_op),
      (iommu_run (iommu_domain_alloc .IOMMU_DOMAIN_DMA dma_mask root width) ops).mappings.Pairwise
        iommu_disjoint) ∧
    (∀ (d : iommu_domain_t) (op : iommu_op),
      d.mappings.Pairwise iommu_disjoint →
        (iommu_step d op).mappings.Pairwise iommu_disjoint) ∧
    (∀ (d : iommu_domain_t) (p1 s1 f1 p2 s2 f2 i1 i2 : Nat),
      d.type = .IOMMU_DOMAIN_DMA →
      (iommu_map d p1 s1 f1).1 = .ok i1 →
      (iommu_map (iommu_map d p1 s1 f1).2 p2 s2 f2).1 = .ok i2 →
        (iommu_map (iommu_map d p1 s1 f1).2 p2 s2 f2).2.mappings =
          { virt_address := i2, phys_address := p2, size := s2, flags := f2 } ::
          { virt_address := i1, phys_address := p1, size := s1, flags := f1 } :: d.mappings ∧
        ∀ x, ¬ (i1 ≤ x ∧ x < i1 + s1 ∧ i2 ≤ x ∧ x < i2 + s2)) := by
  refine ⟨?_, iommu_step_keeps_disjoint, ?_⟩
  · intro dma_mask root width ops
    apply iommu_run_keeps_disjoint
    simp [iommu_domain_alloc]
  · intro d p1 s1 f1 p2 s2 f2 i1 i2 hdma h1 h2
    have m1 := iommu_map_dma_ok d p1 s1 f1 i1 hdma h1
    have m2 := iommu_map_dma_ok (iommu_map d p1 s1 f1).2 p2 s2 f2 i2 m1.2.1 h2
    refine ⟨by rw [m2.1, m1.1], ?_⟩
    have hfree := m2.2.2
    have hd := iommu_range_free_disjoint _ i2 s2 hfree p2 f2
      { virt_address := i1, phys_address := p1, size := s1, flags := f1 }
      (by rw [m1.1]; exact List.mem_cons_self _ _)
    intro x hx
    exact hd x ⟨hx.2.2.1, hx.2.2.2, hx.1, hx.2.1⟩

/-- C6, witness: two page-sized maps on the sample DMA domain return the
IOVAs 0 and 4096, and the two ranges share no address. -/
theorem iommu_map_disjoint_contract_witness :
    (iommu_map iommu_sample_domain 0x100000 4096 3).1 = .ok 0 ∧
    (iommu_map (iommu_map iommu_sample_domain 0x100000 4096 3).2 0x300000 4096 3).1 =
      .ok 4096 ∧
    (∀ x, ¬ (0 ≤ x ∧ x < 0 + 4096 ∧ 4096 ≤ x ∧ x < 4096 + 4096)) :=
  ⟨rfl, rfl,
   (iommu_map_disjoint_contract.2.2 iommu_sample_domain 0x100000 4096 3 0x300000 4096 3
      0 4096 rfl rfl rfl).2⟩

/-! ## MSI vector count -/

/-- From a power of two 2^k within the request, with `steps` doublings left,
the rounding ends at the largest power of two 2^e with e <= k + steps that is
within the request. -/
theorem msi_round_down_spec (steps k r : Nat) (hk : 2 ^ k ≤ r) :
    ∃ e, msi_round_down steps (2 ^ k) r = 2 ^ e ∧ k ≤ e ∧ e ≤ k + steps ∧ 2 ^ e ≤ r ∧
      (e < k + steps → r < 2 ^ (e + 1)) := by
  induction steps generalizing k with
  | zero => exact ⟨k, rfl, le_refl k, le_refl k, hk, fun h => absurd h (by omega)⟩
  | succ n ih =>
    by_cases hd : 2 * 2 ^ k ≤ r
    · have hk1 : 2 ^ (k + 1) ≤ r := by rw [pow_succ]; omega
      obtain ⟨e, he, h1, h2, h3, h4⟩ := ih (k + 1) hk1
      refine ⟨e, ?_, by omega, by omega, h3, fun h => h4 (by omega)⟩
      simp only [msi_round_down, hd, if_true]
      rw [show 2 * 2 ^ k = 2 ^ (k + 1) by rw [pow_succ]; omega]
      exact he
    · refine ⟨k, ?_, le_refl k, by omega, hk, fun _ => ?_⟩
      · simp [msi_round_down, hd]
      · rw [pow_succ]; omega

/-- C7: for an MSI-capable device with multiple_message_capable = m and a
request of r >= 1 vectors, pci_setup_msi succeeds and programs num_vectors = the
largest power of two that is at most r and at most 2^m: it is a power of two
within both bounds, and every power of two within both bounds is at most it.
For m = 3 and r = 5 it programs exactly 4 vectors. -/
theorem pci_setup_msi_contract (msi : msi_info_t) (r address data base_vector : Nat)
    (hs : msi.supported = true) (hr : 1 ≤ r) :
    (pci_setup_msi msi r address data base_vector).1 = true ∧
    (∃ e, (pci_setup_msi msi r address data base_vector).2.num_vectors = 2 ^ e) ∧
    (pci_setup_msi msi r address data base_vector).2.num_vectors ≤ r ∧
    (pci_setup_msi msi r address data base_vector).2.num_vectors ≤
      2 ^ msi.multiple_message_capable ∧
    (∀ j, 2 ^ j ≤ r → 2 ^ j ≤ 2 ^ msi.multiple_message_capable →
      2 ^ j ≤ (pci_setup_msi msi r address data base_vector).2.num_vectors) ∧
    (msi.multiple_message_capable = 3 → r = 5 →
      (pci_setup_msi msi r address data base_vector).2.num_vectors = 4) := by
  have hne : ¬ (msi.supported = false ∨ r = 0) := by
    rw [hs]; simp; omega
  have hnum : (pci_setup_msi msi r address data base_vector).2.num_vectors =
      msi_round_down msi.multiple_message_capable 1 r := by
    simp only [pci_setup_msi, if_neg hne]
  have hfst : (pci_setup_msi msi r address data base_vector).1 = true := by
    simp only [pci_setup_msi, if_neg hne]
  obtain ⟨e, he, _, h2, h3, h4⟩ :=
    msi_round_down_spec msi.multiple_message_capable 0 r (by simpa using hr)
  simp only [pow_zero, Nat.zero_add] at he h2 h4
  rw [hnum, he]
  refine ⟨hfst, ⟨e, rfl⟩, h3, Nat.pow_le_pow_right (by decide) h2, ?_, ?_⟩
  · intro j hjr hjm
    have hjm2 : j ≤ msi.multiple_message_capable :=
      (Nat.pow_le_pow_iff_right (by decide)).mp hjm
    apply Nat.pow_le_pow_right (by decide)
    by_contra hlt
    have hej : e + 1 ≤ j := by omega
    have : r < 2 ^ (e + 1) := h4 (by omega)
    have : 2 ^ (e + 1) ≤ 2 ^ j := Nat.pow_le_pow_right (by decide) hej
    omega
  · intro hm hr5
    rw [← he, hm, hr5]
    decide

/-- C7, witness: with multiple_message_capable = 3 and a request of 5 vectors
the sample device is programmed with 4 vectors. -/
theorem pci_setup_msi_contract_witness :
    (pci_setup_msi msi_sample 5 0xFEE00000 0x41 0x40).1 = true ∧
    (pci_setup_msi msi_sample 5 0xFEE00000 0x41 0x40).2.num_vectors = 4 :=
  ⟨(pci_setup_msi_contract msi_sample 5 0xFEE00000 0x41 0x40 rfl (by decide)).1,
   (pci_setup_msi_contract msi_sample 5 0xFEE00000 0x41 0x40 rfl (by decide)).2.2.2.2.2
      rfl rfl⟩

/-! ## Halting: PANIC, shutdown, reboot -/

/-- The loop `while(1) body;` has not returned after any number of rounds; after
`fuel` rounds the body has run `fuel` times. -/
theorem while_one_never_returns (body : Kernel.KState → Kernel.KState) (fuel : Nat)
    (s : Kernel.KState) :
    (Kernel.while_one body fuel s).returned = false ∧
    (Kernel.while_one body fuel s).state = body^[fuel] s := by
  induction fuel generalizing s with
  | zero => exact ⟨rfl, rfl⟩
  | succ n ih =>
    simp only [Kernel.while_one, ne_eq, one_ne_zero, not_false_eq_true, if_true,
      Function.iterate_succ, Function.comp_apply]
    exact ih (body s)

theorem execute_command_shutdown (fuel : Nat) (s : Kernel.KState) :
    Kernel.execute_command fuel (cstr "shutdown") s = Kernel.cmd_shutdown fuel s := by
  unfold Kernel.execute_command
  rw [if_neg (by decide), if_neg (by decide), if_neg (by decide), if_neg (by decide),
    if_neg (by decide), if_neg (by decide), if_neg (by decide), if_neg (by decide),
    if_neg (by decide), if_neg (by decide), if_pos (by decide)]

theorem execute_command_reboot (fuel : Nat) (s : Kernel.KState) :
    Kernel.execute_command fuel (cstr "reboot") s = Kernel.cmd_reboot fuel s := by
  unfold Kernel.execute_command
  rw [if_neg (by decide), if_neg (by decide), if_neg (by decide), if_neg (by decide),
    if_neg (by decide), if_neg (by decide), if_neg (by decide), if_neg (by decide),
    if_neg (by decide), if_neg (by decide), if_neg (by decide), if_pos (by decide)]

/-- A command that is not a halt does come back: "pwd" returns after
cmd_pwd. -/
theorem execute_command_pwd (fuel : Nat) (s : Kernel.KState) :
    Kernel.execute_command fuel (cstr "pwd") s = Kernel.done (Kernel.cmd_pwd s) := by
  unfold Kernel.execute_command
  rw [if_neg (by decide), if_neg (by decide), if_neg (by decide), if_pos (by decide)]

/-- C8: PANIC(msg) disables interrupts, prints "KERNEL PANIC: ", msg and the
halt line, and then has not returned after any number of rounds of its loop
`while(1) HLT();`; the kernel's execute_command("shutdown") and
execute_command("reboot") print their messages and likewise have not returned
to the command loop after any number of rounds of `while(1) {}`. -/
theorem halt_never_returns :
    (∀ (disable_interrupts : Kernel.KState → Kernel.KState) (fuel : Nat) (msg : List Int)
        (s : Kernel.KState),
      (Kernel.PANIC disable_interrupts fuel msg s).returned = false ∧
      (Kernel.PANIC disable_interrupts fuel msg s).state =
        Kernel.kprint (cstr "\nSystem halted.\n")
          (Kernel.kprint msg
            (Kernel.kprint_colored (cstr "KERNEL PANIC: ") Kernel.VGA_COLOR_LIGHT_RED
              (disable_interrupts s)))) ∧
    (∀ (fuel : Nat) (s : Kernel.KState),
      (Kernel.execute_command fuel (cstr "shutdown") s).returned = false ∧
      (Kernel.execute_command fuel (cstr "shutdown") s).state =
        Kernel.kprint (cstr "System halted.\n")
          (Kernel.kprint (cstr "Unmounting filesystems...\n")
            (Kernel.kprint (cstr "Stopping services...\n")
              (Kernel.kprint_colored (cstr "System is shutting down...\n") 0x0C s)))) ∧
    (∀ (fuel : Nat) (s : Kernel.KState),
      (Kernel.execute_command fuel (cstr "reboot") s).returned = false ∧
      (Kernel.execute_command fuel (cstr "reboot") s).state =
        Kernel.kprint (cstr "Restarting...\n")
          (Kernel.kprint (cstr "Stopping services...\n")
            (Kernel.kprint_colored (cstr "System is rebooting...\n") 0x0C s))) := by
  have hid : ∀ (n : Nat) (t : Kernel.KState), (fun u : Kernel.KState => u)^[n] t = t := by
    intro n t
    induction n with
    | zero => rfl
    | succ k ih => rw [Function.iterate_succ, Function.comp_apply, ih]
  have hhlt : ∀ (n : Nat) (t : Kernel.KState), Kernel.HLT^[n] t = t := hid
  refine ⟨?_, ?_, ?_⟩
  · intro di fuel msg s
    unfold Kernel.PANIC
    simp only []
    refine ⟨(while_one_never_returns Kernel.HLT fuel _).1, ?_⟩
    rw [(while_one_never_returns Kernel.HLT fuel _).2, hhlt]
  · intro fuel s
    rw [execute_command_shutdown]
    unfold Kernel.cmd_shutdown
    refine ⟨(while_one_never_returns _ fuel _).1, ?_⟩
    rw [(while_one_never_returns _ fuel _).2, hid]
    rfl
  · intro fuel s
    rw [execute_command_reboot]
    unfold Kernel.cmd_reboot
    refine ⟨(while_one_never_returns _ fuel _).1, ?_⟩
    rw [(while_one_never_returns _ fuel _).2, hid]
    rfl

set_option maxRecDepth 100000 in
/-- An example run: PANIC("boom") from the blank screen has not returned
after 5 rounds, row 0 reads "KERNEL PANIC: boom", and the cursor is on row 2;
"shutdown" has not returned after 7 rounds and row 3 starts with the halt
line. -/
theorem halt_screen_example :
    (Kernel.PANIC id 5 (cstr "boom") Kernel.initial_state).returned = false ∧
    (List.range 18).map
        (fun i => (Kernel.PANIC id 5 (cstr "boom") Kernel.initial_state).state.vga_buffer
          (i * 2)) = cstr "KERNEL PANIC: boom" ∧
    (Kernel.PANIC id 5 (cstr "boom") Kernel.initial_state).state.cursor_y = 2 ∧
    (Kernel.execute_command 7 (cstr "shutdown") Kernel.initial_state).returned = false ∧
    (List.range 14).map
        (fun i => (Kernel.execute_command 7 (cstr "shutdown")
          Kernel.initial_state).state.vga_buffer ((3 * 80 + i) * 2)) =
      cstr "System halted." := by
  refine ⟨by decide, by decide, by decide, by decide, by decide⟩

/-! ## strcmp -/

theorem shell_strcmp_eq_kernel (a b : List Int) : Shell.strcmp a b = Kernel.strcmp a b := by
  induction a generalizing b with
  | nil => simp [Shell.strcmp, Kernel.strcmp]
  | cons c r ih => simp [Shell.strcmp, Kernel.strcmp, ih]

theorem kernel_strcmp_neg (a b : List Int) : Kernel.strcmp a b = - Kernel.strcmp b a := by
  induction a generalizing b with
  | nil =>
    cases b with
    | nil => simp [Kernel.strcmp, peek]
    | cons c r =>
      by_cases hc : c = 0 <;> simp [Kernel.strcmp, peek, hc]
  | cons c1 r1 ih =>
    cases b with
    | nil => by_cases hc : c1 = 0 <;> simp [Kernel.strcmp, peek, hc]
    | cons c2 r2 =>
      by_cases h : c1 ≠ 0 ∧ c1 = c2
      · obtain ⟨h1, rfl⟩ := h
        simp only [Kernel.strcmp, peek, List.headD_cons, List.tail_cons, h1, and_self,
          if_true, ne_eq, not_false_eq_true]
        exact ih r2
      · have h' : ¬ (c2 ≠ 0 ∧ c2 = c1) := fun hh => h ⟨hh.2 ▸ hh.1, hh.2.symm⟩
        simp only [Kernel.strcmp, peek, List.headD_cons, h, h', if_false]
        omega

theorem kernel_strcmp_self (a : List Int) (ha : is_cstring a) : Kernel.strcmp a a = 0 := by
  induction a with
  | nil => simp [Kernel.strcmp, peek]
  | cons c r ih =>
    have hc : c ≠ 0 := ha c (List.mem_cons_self _ _)
    have hr : is_cstring r := fun x hx => ha x (List.mem_cons_of_mem _ hx)
    simp [Kernel.strcmp, peek, hc, ih hr]

/-- When two strings agree below index i and differ at i, strcmp returns the
difference of the characters at i. -/
theorem kernel_strcmp_first_diff (i : Nat) (a b : List Int)
    (ha : is_cstring a) (hb : is_cstring b)
    (hpre : ∀ j, j < i → char_at a j = char_at b j) (hdiff : char_at a i ≠ char_at b i) :
    Kernel.strcmp a b = char_at a i - char_at b i := by
  induction i generalizing a b with
  | zero =>
    cases a with
    | nil => simp [Kernel.strcmp, peek, char_at, List.getD_eq_getElem?_getD, List.headD_eq_head?_getD, List.head?_eq_getElem?]
    | cons c r =>
      have hne : ¬ (c ≠ 0 ∧ c = peek b) := by
        intro h
        apply hdiff
        cases b <;> simp_all [char_at, peek]
      simp only [Kernel.strcmp, hne, if_false]
      cases b <;> simp [char_at, peek]
  | succ i ih =>
    have h0 := hpre 0 (Nat.succ_pos i)
    cases a with
    | nil =>
      cases b with
      | nil => simp [char_at] at hdiff
      | cons c2 r2 =>
        have := hb c2 (List.mem_cons_self _ _)
        simp [char_at] at h0
        exact absurd h0.symm this
    | cons c1 r1 =>
      have hc1 : c1 ≠ 0 := ha c1 (List.mem_cons_self _ _)
      cases b with
      | nil =>
        simp [char_at] at h0
        exact absurd h0 hc1
      | cons c2 r2 =>
        have hc : c1 = c2 := by simpa [char_at] using h0
        have hr1 : is_cstring r1 := fun x hx => ha x (List.mem_cons_of_mem _ hx)
        have hr2 : is_cstring r2 := fun x hx => hb x (List.mem_cons_of_mem _ hx)
        have hrec := ih r1 r2 hr1 hr2
          (fun j hj => by simpa [char_at] using hpre (j + 1) (by omega))
          (by simpa [char_at] using hdiff)
        simp only [Kernel.strcmp, peek, List.headD_cons, List.tail_cons, hc1, hc, ne_eq,
          not_false_eq_true, and_self, if_true]
        subst hc
        simpa [char_at, hc1] using hrec

/-- Two different strings have a first index at which they differ. -/
theorem cstring_first_diff (a b : List Int) (ha : is_cstring a) (hb : is_cstring b)
    (hne : a ≠ b) :
    ∃ i, i ≤ a.length ∧ i ≤ b.length ∧ (∀ j, j < i → char_at a j = char_at b j) ∧
      char_at a i ≠ char_at b i := by
  induction a generalizing b with
  | nil =>
    cases b with
    | nil => exact absurd rfl hne
    | cons c2 r2 =>
      refine ⟨0, by simp, by simp, fun j hj => absurd hj (by omega), ?_⟩
      have := hb c2 (List.mem_cons_self _ _)
      simpa [char_at] using this.symm
  | cons c1 r1 ih =>
    have hc1 : c1 ≠ 0 := ha c1 (List.mem_cons_self _ _)
    cases b with
    | nil =>
      exact ⟨0, by simp, by simp, fun j hj => absurd hj (by omega), by simpa [char_at] using hc1⟩
    | cons c2 r2 =>
      by_cases hc : c1 = c2
      · subst hc
        have hr1 : is_cstring r1 := fun x hx => ha x (List.mem_cons_of_mem _ hx)
        have hr2 : is_cstring r2 := fun x hx => hb x (List.mem_cons_of_mem _ hx)
        obtain ⟨i, h1, h2, h3, h4⟩ := ih r2 hr1 hr2 (fun h => hne (by rw [h]))
        refine ⟨i + 1, by simpa using h1, by simpa using h2, ?_, by simpa [char_at] using h4⟩
        intro j hj
        cases j with
        | zero => simp [char_at]
        | succ j => simpa [char_at] using h3 j (by omega)
      · exact ⟨0, by simp, by simp, fun j hj => absurd hj (by omega), by simpa [char_at] using hc⟩

theorem kernel_strcmp_eq_zero_iff (a b : List Int) (ha : is_cstring a) (hb : is_cstring b) :
    Kernel.strcmp a b = 0 ↔ a = b := by
  constructor
  · intro h0
    by_contra hne
    obtain ⟨i, _, _, hpre, hdiff⟩ := cstring_first_diff a b ha hb hne
    rw [kernel_strcmp_first_diff i a b ha hb hpre hdiff] at h0
    exact hdiff (by omega)
  · intro h
    subst h
    exact kernel_strcmp_self a ha

/-- C9: for NUL-terminated strings a and b, strcmp(a, b) = 0 exactly when a
and b are equal byte for byte; otherwise there is a first index i at which
they differ (the terminator counted as 0) and the result is a[i] - b[i];
strcmp(a, b) = -strcmp(b, a); and the shell's strcmp and the kernel's strcmp
return the same value on every input. -/
theorem strcmp_contract (a b : List Int) (ha : is_cstring a) (hb : is_cstring b) :
    (Kernel.strcmp a b = 0 ↔ a = b) ∧
    (a ≠ b → ∃ i, i ≤ a.length ∧ i ≤ b.length ∧
        (∀ j, j < i → char_at a j = char_at b j) ∧ char_at a i ≠ char_at b i ∧
        Kernel.strcmp a b = char_at a i - char_at b i) ∧
    (∀ i, (∀ j, j < i → char_at a j = char_at b j) → char_at a i ≠ char_at b i →
        Kernel.strcmp a b = char_at a i - char_at b i) ∧
    Kernel.strcmp a b = - Kernel.strcmp b a ∧
    Shell.strcmp a b = Kernel.strcmp a b := by
  refine ⟨kernel_strcmp_eq_zero_iff a b ha hb, ?_, ?_, kernel_strcmp_neg a b,
    shell_strcmp_eq_kernel a b⟩
  · intro hne
    obtain ⟨i, h1, h2, hpre, hdiff⟩ := cstring_first_diff a b ha hb hne
    exact ⟨i, h1, h2, hpre, hdiff, kernel_strcmp_first_diff i a b ha hb hpre hdiff⟩
  · intro i hpre hdiff
    exact kernel_strcmp_first_diff i a b ha hb hpre hdiff

/-- C9, witness: "help" against "halt" differ first at index 1, where
'e' - 'a' = 4; the shell's strcmp returns the same. -/
theorem strcmp_contract_witness :
    is_cstring (cstr "help") ∧ is_cstring (cstr "halt") ∧
    Kernel.strcmp (cstr "help") (cstr "halt") = 4 ∧
    Kernel.strcmp (cstr "halt") (cstr "help") = -4 ∧
    Shell.strcmp (cstr "help") (cstr "halt") = 4 :=
  ⟨by decide, by decide,
   ((strcmp_contract (cstr "help") (cstr "halt") (by decide) (by decide)).2.2.1 1
      (by intro j hj; interval_cases j; decide) (by decide)).trans (by decide),
   by decide, by decide⟩

/-! ## strncmp -/

/-- For a count n >= 0, strncmp compares as strcmp does on the strings cut to n
characters. -/
theorem kernel_strncmp_eq_strcmp_take (n : Nat) (a b : List Int) :
    Kernel.strncmp a b (n : Int) = Kernel.strcmp (a.take n) (b.take n) := by
  induction n generalizing a b with
  | zero =>
    cases a <;> simp [Kernel.strncmp, Kernel.strcmp, peek]
  | succ k ih =>
    have hk : ((k + 1 : Nat) : Int) - 1 = (k : Int) := by push_cast; omega
    have hge : ¬ (((k + 1 : Nat) : Int) - 1 < 0) := by rw [hk]; omega
    have hnz : ((k + 1 : Nat) : Int) ≠ 0 := by push_cast; omega
    have hpeek : peek (b.take (k + 1)) = peek b := by cases b <;> simp [peek]
    have htail : (b.take (k + 1)).tail = b.tail.take k := by cases b <;> simp
    cases a with
    | nil =>
      simp only [Kernel.strncmp, hge, if_false, List.take_nil, Kernel.strcmp, hpeek]
    | cons c1 r1 =>
      simp only [Kernel.strncmp, List.take_succ_cons, Kernel.strcmp, hpeek, htail, hge,
        if_false, hnz, ne_eq, not_false_eq_true, true_and, hk]
      split
      · exact ih r1 b.tail
      · rfl

theorem is_cstring_take (a : List Int) (n : Nat) (ha : is_cstring a) :
    is_cstring (a.take n) :=
  fun c hc => ha c (List.mem_of_mem_take hc)

theorem char_at_take (a : List Int) (n i : Nat) (h : i < n) :
    char_at (a.take n) i = char_at a i := by
  simp [char_at, List.getD_eq_getElem?_getD, List.getElem?_take, h]

theorem take_eq_take_iff_cases (a b : List Int) (n : Nat) :
    a.take n = b.take n ↔
      (n ≤ a.length ∧ n ≤ b.length ∧ a.take n = b.take n) ∨ (a = b ∧ a.length < n) := by
  constructor
  · intro h
    have hlen := congrArg List.length h
    simp only [List.length_take] at hlen
    by_cases hn : n ≤ a.length
    · exact Or.inl ⟨hn, by omega, h⟩
    · right
      have hb : b.length ≤ n := by omega
      rw [List.take_of_length_le (by omega), List.take_of_length_le hb] at h
      exact ⟨h, by omega⟩
  · rintro (⟨_, _, h⟩ | ⟨h, _⟩)
    · exact h
    · rw [h]

theorem take_eq_iff_prefix (a p : List Int) : a.take p.length = p ↔ p <+: a := by
  constructor
  · intro h
    rw [← h]
    exact List.take_prefix _ _
  · intro h
    exact List.prefix_iff_eq_take.mp h |>.symm

/-- C10: for NUL-terminated strings a, b and a count n >= 0, strncmp(a, b, n)
is 0 exactly when a and b agree on their first n bytes or are equal strings
shorter than n bytes; when they first differ at an index i < n the result is
a[i] - b[i]; strncmp(cmd, "cd ", 3) is 0 exactly when cmd begins with "cd ";
and strncmp(a, b, 0) is 0. -/
theorem strncmp_contract (a b : List Int) (n : Nat) (ha : is_cstring a) (hb : is_cstring b) :
    (Kernel.strncmp a b (n : Int) = 0 ↔
      (n ≤ a.length ∧ n ≤ b.length ∧ a.take n = b.take n) ∨ (a = b ∧ a.length < n)) ∧
    (∀ i, i < n → (∀ j, j < i → char_at a j = char_at b j) → char_at a i ≠ char_at b i →
      Kernel.strncmp a b (n : Int) = char_at a i - char_at b i) ∧
    (Kernel.strncmp a (cstr "cd ") 3 = 0 ↔ cstr "cd " <+: a) ∧
    Kernel.strncmp a b 0 = 0 := by
  have hz : ∀ (m : Nat) (x y : List Int), is_cstring x → is_cstring y →
      (Kernel.strncmp x y (m : Int) = 0 ↔ x.take m = y.take m) := by
    intro m x y hx hy
    rw [kernel_strncmp_eq_strcmp_take]
    exact kernel_strcmp_eq_zero_iff _ _ (is_cstring_take x m hx) (is_cstring_take y m hy)
  refine ⟨?_, ?_, ?_, ?_⟩
  · rw [hz n a b ha hb]
    exact take_eq_take_iff_cases a b n
  · intro i hi hpre hdiff
    rw [kernel_strncmp_eq_strcmp_take]
    rw [← char_at_take a n i hi, ← char_at_take b n i hi] at hdiff ⊢
    apply kernel_strcmp_first_diff i _ _ (is_cstring_take a n ha) (is_cstring_take b n hb)
    · intro j hj
      rw [char_at_take a n j (by omega), char_at_take b n j (by omega)]
      exact hpre j hj
    · exact hdiff
  · have h3 := hz 3 a (cstr "cd ") ha (by decide)
    have hlen : (cstr "cd ").length = 3 := by decide
    have htk : (cstr "cd ").take 3 = cstr "cd " := by decide
    rw [show ((3 : Nat) : Int) = 3 from rfl] at h3
    rw [h3, htk, ← hlen]
    exact take_eq_iff_prefix a (cstr "cd ")
  · have h0 := hz 0 a b ha hb
    simpa using h0

/-- C10, witness: "cd /usr" begins with "cd " and strncmp over 3 bytes is 0;
"cat" against "cd " differs first at index 1 < 3, where 'a' - 'd' = -3. -/
theorem strncmp_contract_witness :
    is_cstring (cstr "cd /usr") ∧ is_cstring (cstr "cat") ∧
    Kernel.strncmp (cstr "cd /usr") (cstr "cd ") 3 = 0 ∧
    Kernel.strncmp (cstr "cat") (cstr "cd ") 3 = -3 :=
  ⟨by decide, by decide,
   (strncmp_contract (cstr "cd /usr") (cstr "cd ") 3 (by decide) (by decide)).2.2.1.mpr
      (by decide),
   ((strncmp_contract (cstr "cat") (cstr "cd ") 3 (by decide) (by decide)).2.1 1 (by decide)
      (by intro j hj; interval_cases j; decide) (by decide)).trans (by decide)⟩


/-! ## strlen -/

theorem first_nul_terminator (s : List Int) : char_at s (first_nul s) = 0 := by
  induction s with
  | nil => simp [first_nul, char_at]
  | cons c r ih =>
    by_cases hc : c = 0
    · simp [first_nul, char_at, hc]
    · simpa [first_nul, char_at, hc] using ih

theorem first_nul_nonzero_below (s : List Int) (j : Nat) (hj : j < first_nul s) :
    char_at s j ≠ 0 := by
  induction s generalizing j with
  | nil => simp [first_nul] at hj
  | cons c r ih =>
    by_cases hc : c = 0
    · simp [first_nul, hc] at hj
    · cases j with
      | zero => simpa [char_at] using hc
      | succ k =>
        simp only [first_nul, ne_eq, hc, not_false_eq_true, if_true,
          Nat.add_lt_add_iff_right] at hj
        simpa [char_at] using ih k hj

theorem first_nul_least (s : List Int) (i : Nat) (hi : char_at s i = 0) :
    first_nul s ≤ i := by
  by_contra h
  exact first_nul_nonzero_below s i (by omega) hi

theorem first_nul_of_cstring (s : List Int) (hs : is_cstring s) :
    first_nul s = s.length := by
  induction s with
  | nil => rfl
  | cons c r ih =>
    have hc : c ≠ 0 := hs c (List.mem_cons_self _ _)
    have hr : is_cstring r := fun x hx => hs x (List.mem_cons_of_mem _ hx)
    simp [first_nul, hc, ih hr]

theorem first_nul_le_length (s : List Int) : first_nul s ≤ s.length := by
  apply first_nul_least
  simp [char_at]

theorem read_char_nat (s : List Int) (k : Nat) : read_char s (k : Int) = char_at s k := by
  simp [read_char, char_at]

/-- The counter of the strlen loop, started at an index k that is not behind
the first NUL and given enough rounds, ends at the first NUL when that lies
below 2^31, and at -2^31 otherwise: there the increment of 2^31 - 1 wraps and
the read at the negative index ends the loop. -/
theorem kernel_strlen_loop_eq (s : List Int) (rounds k : Nat) (hk : k ≤ first_nul s)
    (hk31 : k < 2147483648) (hr : min (first_nul s) 2147483648 - k < rounds) :
    Kernel.strlen_loop s rounds (k : Int) =
      if first_nul s < 2147483648 then (first_nul s : Int) else -2147483648 := by
  induction rounds generalizing k with
  | zero => omega
  | succ r ih =>
    simp only [Kernel.strlen_loop, read_char_nat]
    by_cases hz : char_at s k = 0
    · have hle := first_nul_least s k hz
      have hkk : first_nul s = k := by omega
      rw [if_neg (by simpa using hz), if_pos (by omega), hkk]
    · have hlt : k < first_nul s := by
        rcases Nat.lt_or_ge k (first_nul s) with h | h
        · exact h
        · exact absurd (by rw [show k = first_nul s by omega]; exact first_nul_terminator s) hz
      rw [if_pos hz]
      by_cases hw : k + 1 < 2147483648
      · have hwrap : wrap_int ((k : Int) + 1) = ((k + 1 : Nat) : Int) := by
          unfold wrap_int; push_cast; omega
        rw [hwrap]
        exact ih (k + 1) (by omega) hw (by omega)
      · have hwrap : wrap_int ((k : Int) + 1) = -2147483648 := by
          unfold wrap_int; omega
        rw [hwrap, if_neg (by omega)]
        cases r with
        | zero => omega
        | succ r2 => simp [Kernel.strlen_loop, read_char]

/-- The value of strlen: the index of the first NUL when that is below 2^31, and
-2^31 for a longer string. -/
theorem kernel_strlen_eq (s : List Int) :
    Kernel.strlen s =
      if first_nul s < 2147483648 then (first_nul s : Int) else -2147483648 := by
  have h := kernel_strlen_loop_eq s (s.length + 1) 0 (Nat.zero_le _) (by decide)
    (by have := first_nul_le_length s; omega)
  simpa [Kernel.strlen] using h

theorem kernel_strlen_short (s : List Int) (h : first_nul s < 2147483648) :
    Kernel.strlen s = (first_nul s : Int) := by
  rw [kernel_strlen_eq, if_pos h]

/-- More rounds than str.length + 1 do not change the result of the loop. -/
theorem kernel_strlen_rounds (s : List Int) (extra : Nat) :
    Kernel.strlen_loop s (s.length + 1 + extra) 0 = Kernel.strlen s := by
  have h := kernel_strlen_loop_eq s (s.length + 1 + extra) 0 (Nat.zero_le _) (by decide)
    (by have := first_nul_le_length s; omega)
  rw [kernel_strlen_eq]
  simpa using h

theorem shell_strlen_loop_eq_kernel (s : List Int) (rounds : Nat) (len : Int) :
    Shell.strlen_loop s rounds len = Kernel.strlen_loop s rounds len := by
  induction rounds generalizing len with
  | zero => rfl
  | succ r ih => simp [Shell.strlen_loop, Kernel.strlen_loop, ih]

theorem shell_strlen_eq_kernel (s : List Int) : Shell.strlen s = Kernel.strlen s := by
  simp [Shell.strlen, Kernel.strlen, shell_strlen_loop_eq_kernel]

theorem char_at_replicate (n : Nat) (c : Int) (j : Nat) :
    char_at (List.replicate n c) j = if j < n then c else 0 := by
  induction n generalizing j with
  | zero => simp [char_at]
  | succ m ih =>
    cases j with
    | zero => simp [char_at, List.replicate_succ]
    | succ k =>
      have h := ih k
      simp only [char_at, List.replicate_succ, List.getD_cons_succ] at h ⊢
      rw [h]
      simp

theorem first_nul_replicate (n : Nat) (c : Int) (hc : c ≠ 0) :
    first_nul (List.replicate n c) = n := by
  induction n with
  | zero => rfl
  | succ m ih => simp [List.replicate_succ, first_nul, hc, ih]

/-- C12 (as amended): for every NUL-terminated string s of fewer than 2^31
bytes (the memory at the pointer, read as 0 behind its end), strlen(s) is the
least index i with s[i] = 0: it is not negative, the byte at index strlen(s)
is zero, every byte at an index below strlen(s) is non-zero, and no index
below strlen(s) holds a zero; strlen(s) = 0 exactly when the first byte is the
terminator, that is, for the empty string; for a string given by its
characters, strlen is their number.  The loop is left within
str.length + 1 rounds, and the shell's strlen returns the same as the
kernel's. -/
theorem strlen_contract (s : List Int) (hshort : ∃ i, i < 2147483648 ∧ char_at s i = 0) :
    0 ≤ Kernel.strlen s ∧
    char_at s (Kernel.strlen s).toNat = 0 ∧
    (∀ j : Nat, (j : Int) < Kernel.strlen s → char_at s j ≠ 0) ∧
    (∀ i : Nat, char_at s i = 0 → Kernel.strlen s ≤ (i : Int)) ∧
    (Kernel.strlen s = 0 ↔ char_at s 0 = 0) ∧
    (is_cstring s → Kernel.strlen s = (s.length : Int) ∧ (Kernel.strlen s = 0 ↔ s = [])) ∧
    (∀ extra, Kernel.strlen_loop s (s.length + 1 + extra) 0 = Kernel.strlen s) ∧
    Shell.strlen s = Kernel.strlen s := by
  obtain ⟨i0, hi0, hz0⟩ := hshort
  have hfn : first_nul s < 2147483648 := lt_of_le_of_lt (first_nul_least s i0 hz0) hi0
  have hsl := kernel_strlen_short s hfn
  refine ⟨by rw [hsl]; omega, ?_, ?_, ?_, ?_, ?_, kernel_strlen_rounds s,
    shell_strlen_eq_kernel s⟩
  · rw [hsl, Int.toNat_ofNat]
    exact first_nul_terminator s
  · intro j hj
    rw [hsl] at hj
    exact first_nul_nonzero_below s j (by omega)
  · intro i hi
    rw [hsl]
    have := first_nul_least s i hi
    omega
  · rw [hsl]
    constructor
    · intro h0
      have h := first_nul_terminator s
      rwa [show first_nul s = 0 by omega] at h
    · intro h0
      have h := first_nul_least s 0 h0
      omega
  · intro hs
    have hlen := first_nul_of_cstring s hs
    rw [hsl, hlen]
    refine ⟨rfl, ?_⟩
    rw [Int.natCast_eq_zero]
    exact List.length_eq_zero

/-- C12, witness: "load" has length 4, its byte at index 4 is the terminator
and its byte at index 3 is 'd'; the empty string has length 0. -/
theorem strlen_contract_witness :
    is_cstring (cstr "load") ∧ char_at (cstr "load") 4 = 0 ∧
    Kernel.strlen (cstr "load") = 4 ∧ char_at (cstr "load") 3 ≠ 0 ∧
    Shell.strlen (cstr "load") = 4 ∧ Kernel.strlen (cstr "") = 0 :=
  ⟨by decide, by decide,
   ((strlen_contract (cstr "load") ⟨4, by decide, by decide⟩).2.2.2.2.2.1
      (by decide)).1.trans (by decide),
   (strlen_contract (cstr "load") ⟨4, by decide, by decide⟩).2.2.1 3 (by decide),
   by decide, by decide⟩

/-- C12, counterexample: the string of 2^31 characters 'A' has its first NUL at
index 2147483648, and every byte below that index is non-zero; strlen, whose
counter is a 32-bit `int`, returns -2147483648 for it, which is not that
index. -/
theorem strlen_overflow_counterexample :
    is_cstring (List.replicate 2147483648 65) ∧
    (∀ j, j < 2147483648 → char_at (List.replicate 2147483648 65) j ≠ 0) ∧
    char_at (List.replicate 2147483648 65) 2147483648 = 0 ∧
    Kernel.strlen (List.replicate 2147483648 65) = -2147483648 ∧
    Kernel.strlen (List.replicate 2147483648 65) ≠ 2147483648 := by
  have hfn : first_nul (List.replicate 2147483648 65) = 2147483648 :=
    first_nul_replicate 2147483648 65 (by decide)
  have hval : Kernel.strlen (List.replicate 2147483648 65) = -2147483648 := by
    rw [kernel_strlen_eq, hfn, if_neg (by decide)]
  refine ⟨fun c hc => ?_, fun j hj => ?_, ?_, hval, ?_⟩
  · rw [List.eq_of_mem_replicate hc]
    decide
  · rw [char_at_replicate, if_pos hj]
    decide
  · rw [char_at_replicate, if_neg (by decide)]
  · rw [hval]
    decide

/-! ## strcpy -/

theorem shell_strcpy_eq_kernel (dest src : List Int) :
    Shell.strcpy dest src = Kernel.strcpy dest src := by
  induction src generalizing dest with
  | nil => rfl
  | cons c r ih => simp [Shell.strcpy, Kernel.strcpy, ih]

/-- A destination with room for the string and its terminator is not
overrun: the memory at `dest` keeps its extent. -/
theorem kernel_strcpy_length (dest src : List Int) (hcap : first_nul src < dest.length) :
    (Kernel.strcpy dest src).length = dest.length := by
  induction src generalizing dest with
  | nil =>
    cases dest with
    | nil => simp at hcap
    | cons d dt => simp [Kernel.strcpy]
  | cons c r ih =>
    cases dest with
    | nil => simp at hcap
    | cons d dt =>
      by_cases hc : c = 0
      · simp [Kernel.strcpy, hc]
      · simp only [first_nul, ne_eq, hc, not_false_eq_true, if_true, List.length_cons,
          Nat.add_lt_add_iff_right] at hcap
        simp [Kernel.strcpy, hc, ih dt hcap]

theorem kernel_strcpy_copied (dest src : List Int) (i : Nat) (hi : i ≤ first_nul src) :
    char_at (Kernel.strcpy dest src) i = char_at src i := by
  induction src generalizing dest i with
  | nil =>
    have : i = 0 := by simpa [first_nul] using hi
    subst this
    simp [Kernel.strcpy, char_at]
  | cons c r ih =>
    by_cases hc : c = 0
    · have : i = 0 := by simpa [first_nul, hc] using hi
      subst this
      simp [Kernel.strcpy, char_at, hc]
    · cases i with
      | zero => simp [Kernel.strcpy, char_at, hc]
      | succ k =>
        simp only [first_nul, ne_eq, hc, not_false_eq_true, if_true,
          Nat.add_le_add_iff_right] at hi
        have h := ih dest.tail k hi
        simpa [Kernel.strcpy, char_at, hc] using h

theorem kernel_strcpy_untouched (dest src : List Int) (i : Nat) (hi : first_nul src < i) :
    char_at (Kernel.strcpy dest src) i = char_at dest i := by
  induction src generalizing dest i with
  | nil =>
    cases i with
    | zero => simp at hi
    | succ k => cases dest <;> simp [Kernel.strcpy, char_at]
  | cons c r ih =>
    cases i with
    | zero => simp at hi
    | succ k =>
      by_cases hc : c = 0
      · cases dest <;> simp [Kernel.strcpy, char_at, hc]
      · simp only [first_nul, ne_eq, hc, not_false_eq_true, if_true,
          Nat.add_lt_add_iff_right] at hi
        have h := ih dest.tail k hi
        cases dest with
        | nil => simpa [Kernel.strcpy, char_at, hc] using h
        | cons d dt => simpa [Kernel.strcpy, char_at, hc] using h

theorem first_nul_strcpy (dest src : List Int) :
    first_nul (Kernel.strcpy dest src) = first_nul src := by
  induction src generalizing dest with
  | nil => simp [Kernel.strcpy, first_nul]
  | cons c r ih =>
    by_cases hc : c = 0
    · simp [Kernel.strcpy, first_nul, hc]
    · simp [Kernel.strcpy, first_nul, hc, ih]

theorem kernel_strcmp_strcpy (dest src : List Int) :
    Kernel.strcmp (Kernel.strcpy dest src) src = 0 := by
  induction src generalizing dest with
  | nil => simp [Kernel.strcpy, Kernel.strcmp, peek]
  | cons c r ih =>
    by_cases hc : c = 0
    · simp [Kernel.strcpy, Kernel.strcmp, peek, hc]
    · simp [Kernel.strcpy, Kernel.strcmp, peek, hc, ih]

/-- The string held in the destination after strcpy is the source string. -/
theorem string_at_strcpy (dest src : List Int) (hs : is_cstring src) :
    string_at (Kernel.strcpy dest src) = src := by
  unfold string_at
  rw [first_nul_strcpy, first_nul_of_cstring src hs]
  induction src generalizing dest with
  | nil => simp
  | cons c r ih =>
    have hc : c ≠ 0 := hs c (List.mem_cons_self _ _)
    have hr : is_cstring r := fun x hx => hs x (List.mem_cons_of_mem _ hx)
    simp [Kernel.strcpy, hc, ih dest.tail hr]

/-- The string held in the destination has the length of the source, so
strlen returns the same for both. -/
theorem kernel_strlen_strcpy (dest src : List Int) :
    Kernel.strlen (Kernel.strcpy dest src) = Kernel.strlen src := by
  rw [kernel_strlen_eq, kernel_strlen_eq, first_nul_strcpy]

/-- C11: for a NUL-terminated src of length L (the index of its first NUL) and
a destination buffer of capacity greater than L, kept apart from src, after
strcpy(dest, src) the buffer keeps its extent, the bytes dest[0..L] equal
src[0..L] including the terminating NUL, strlen(dest) = strlen(src),
strcmp(dest, src) = 0, and every byte of dest at an index greater than L is
unchanged; L is what strlen(src) returns when L is below 2^31.  The shell's
strcpy writes the same bytes as the kernel's. -/
theorem strcpy_contract (dest src : List Int) (hcap : first_nul src < dest.length) :
    (Kernel.strcpy dest src).length = dest.length ∧
    (∀ i, i ≤ first_nul src → char_at (Kernel.strcpy dest src) i = char_at src i) ∧
    char_at (Kernel.strcpy dest src) (first_nul src) = 0 ∧
    Kernel.strlen (Kernel.strcpy dest src) = Kernel.strlen src ∧
    Kernel.strcmp (Kernel.strcpy dest src) src = 0 ∧
    (∀ i, first_nul src < i →
      char_at (Kernel.strcpy dest src) i = char_at dest i) ∧
    Shell.strcpy dest src = Kernel.strcpy dest src ∧
    Shell.strlen (Shell.strcpy dest src) = Shell.strlen src ∧
    Shell.strcmp (Shell.strcpy dest src) src = 0 ∧
    (first_nul src < 2147483648 → Kernel.strlen src = (first_nul src : Int)) := by
  refine ⟨kernel_strcpy_length dest src hcap, fun i hi => kernel_strcpy_copied dest src i hi,
    ?_, kernel_strlen_strcpy dest src, kernel_strcmp_strcpy dest src,
    fun i hi => kernel_strcpy_untouched dest src i hi, shell_strcpy_eq_kernel dest src, ?_, ?_,
    kernel_strlen_short src⟩
  · rw [kernel_strcpy_copied dest src _ (le_refl _)]
    exact first_nul_terminator src
  · rw [shell_strcpy_eq_kernel, shell_strlen_eq_kernel, shell_strlen_eq_kernel]
    exact kernel_strlen_strcpy dest src
  · rw [shell_strcpy_eq_kernel, shell_strcmp_eq_kernel]
    exact kernel_strcmp_strcpy dest src

/-- C11, witness: copying "load" into a 16-byte buffer of 'x' gives
"load", a NUL at index 4, and 'x' from index 5 on. -/
theorem strcpy_contract_witness :
    first_nul (cstr "load") < sample_dest.length ∧
    Kernel.strcpy sample_dest (cstr "load") =
      cstr "load" ++ [0] ++ List.replicate 11 120 ∧
    (Kernel.strcpy sample_dest (cstr "load")).length = 16 ∧
    Kernel.strcmp (Kernel.strcpy sample_dest (cstr "load")) (cstr "load") = 0 ∧
    Kernel.strlen (Kernel.strcpy sample_dest (cstr "load")) = 4 ∧
    char_at (Kernel.strcpy sample_dest (cstr "load")) 5 = 120 :=
  ⟨by decide, by decide,
   (strcpy_contract sample_dest (cstr "load") (by decide)).1.trans (by decide),
   (strcpy_contract sample_dest (cstr "load") (by decide)).2.2.2.2.1,
   (strcpy_contract sample_dest (cstr "load") (by decide)).2.2.2.1.trans (by decide),
   ((strcpy_contract sample_dest (cstr "load") (by decide)).2.2.2.2.2.1 5
      (by decide)).trans (by decide)⟩

/-! ## Change directory -/

theorem advance_current_path (s : Kernel.KState) :
    (Kernel.advance s).current_path = s.current_path := by
  unfold Kernel.advance
  simp only []
  split_ifs <;> rfl

theorem put_char_current_path (c attr : Int) (s : Kernel.KState) :
    (Kernel.put_char c attr s).current_path = s.current_path := by
  unfold Kernel.put_char
  simp only []
  rw [advance_current_path]
  split_ifs <;> rfl

theorem kprint_current_path (str : List Int) (s : Kernel.KState) :
    (Kernel.kprint str s).current_path = s.current_path := by
  induction str generalizing s with
  | nil => rfl
  | cons c r ih =>
    simp only [Kernel.kprint]
    split_ifs
    · rw [ih, put_char_current_path]
    · rfl

theorem kprint_colored_current_path (str : List Int) (color : Int) (s : Kernel.KState) :
    (Kernel.kprint_colored str color s).current_path = s.current_path := by
  induction str generalizing s with
  | nil => rfl
  | cons c r ih =>
    simp only [Kernel.kprint_colored]
    split_ifs
    · rw [ih, put_char_current_path]
    · rfl

/-- Printing a buffer prints the string held at its start. -/
theorem kprint_string_at (buf : List Int) (s : Kernel.KState) :
    Kernel.kprint buf s = Kernel.kprint (string_at buf) s := by
  induction buf generalizing s with
  | nil => rfl
  | cons c r ih =>
    by_cases hc : c = 0
    · simp [string_at, first_nul, Kernel.kprint, hc]
    · have h := ih (Kernel.put_char c 7 s)
      simp only [string_at] at h
      simp only [string_at, first_nul, ne_eq, hc, not_false_eq_true, if_true,
        List.take_succ_cons, Kernel.kprint]
      exact h

theorem kprint_append (a b : List Int) (s : Kernel.KState) (ha : is_cstring a) :
    Kernel.kprint (a ++ b) s = Kernel.kprint b (Kernel.kprint a s) := by
  induction a generalizing s with
  | nil => rfl
  | cons c r ih =>
    have hc : c ≠ 0 := ha c (List.mem_cons_self _ _)
    have hr : is_cstring r := fun x hx => ha x (List.mem_cons_of_mem _ hx)
    simp only [List.cons_append, Kernel.kprint, ne_eq, hc, not_false_eq_true, if_true]
    exact ih _ hr

theorem is_cstring_string_at (buf : List Int) : is_cstring (string_at buf) := by
  induction buf with
  | nil => simp [string_at, is_cstring]
  | cons c r ih =>
    by_cases hc : c = 0
    · simp [string_at, first_nul, hc, is_cstring]
    · intro x hx
      simp only [string_at, first_nul, ne_eq, hc, not_false_eq_true, if_true,
        List.take_succ_cons, List.mem_cons] at hx
      rcases hx with rfl | hx
      · exact hc
      · exact ih x hx

theorem string_at_append_nul (a r : List Int) (ha : is_cstring a) :
    string_at (a ++ 0 :: r) = a := by
  induction a with
  | nil => simp [string_at, first_nul]
  | cons c t ih =>
    have hc : c ≠ 0 := ha c (List.mem_cons_self _ _)
    have ht : is_cstring t := fun x hx => ha x (List.mem_cons_of_mem _ hx)
    have h := ih ht
    simp only [string_at] at h
    simp [string_at, first_nul, hc, h]

/-- The memory at `dest` after copying a string: the characters, the
terminator, and the old bytes behind it. -/
theorem kernel_strcpy_eq_append (dest src : List Int) (hs : is_cstring src) :
    Kernel.strcpy dest src = src ++ 0 :: dest.drop (src.length + 1) := by
  induction src generalizing dest with
  | nil => cases dest <;> simp [Kernel.strcpy]
  | cons c r ih =>
    have hc : c ≠ 0 := hs c (List.mem_cons_self _ _)
    have hr : is_cstring r := fun x hx => hs x (List.mem_cons_of_mem _ hx)
    simp only [Kernel.strcpy, ne_eq, hc, not_false_eq_true, if_true, ih dest.tail hr,
      List.cons_append, List.length_cons]
    cases dest <;> simp

theorem cmd_cd_current_path (cmd : List Int) (s : Kernel.KState) :
    (Kernel.cmd_cd cmd s).current_path =
      if Kernel.strlen (cmd.drop 3) > 0 ∧ Kernel.strlen (cmd.drop 3) < 200 then
        if read_char (Kernel.strcpy s.current_path (cmd.drop 3))
            (Kernel.strlen (Kernel.strcpy s.current_path (cmd.drop 3)) - 1) ≠ 47 then
          Kernel.store
            (Kernel.store (Kernel.strcpy s.current_path (cmd.drop 3))
              (Kernel.strlen (Kernel.strcpy s.current_path (cmd.drop 3))).toNat 47)
            (Kernel.strlen (Kernel.strcpy s.current_path (cmd.drop 3)) + 1).toNat 0
        else Kernel.strcpy s.current_path (cmd.drop 3)
      else s.current_path := by
  unfold Kernel.cmd_cd
  simp only [kprint_current_path, kprint_colored_current_path]
  split_ifs <;> simp [kprint_current_path, kprint_colored_current_path]

/-- The two stores that append '/' and a new terminator behind a string of
length P.length held at the start of a buffer. -/
theorem store_slash_nul (P rest : List Int) :
    ∃ rt, Kernel.store (Kernel.store (P ++ 0 :: rest) P.length 47) (P.length + 1) 0 =
        P ++ 47 :: 0 :: rt ∧
      (rest ≠ [] → (P ++ 47 :: 0 :: rt).length = (P ++ 0 :: rest).length) := by
  have h1 : Kernel.store (P ++ 0 :: rest) P.length 47 = P ++ 47 :: rest := by
    unfold Kernel.store
    rw [if_pos (by simp)]
    simp
  rw [h1]
  cases rest with
  | nil =>
    refine ⟨[], ?_, fun h => absurd rfl h⟩
    unfold Kernel.store
    rw [if_neg (by simp)]
    simp
  | cons r0 rt =>
    refine ⟨rt, ?_, fun _ => by simp⟩
    unfold Kernel.store
    rw [if_pos (by simp)]
    have : P.length + 1 = (P ++ [47]).length := by simp
    rw [show P ++ 47 :: r0 :: rt = (P ++ [47]) ++ r0 :: rt by simp, this,
      List.set_append_right _ _ (le_refl _)]
    simp

theorem char_at_last (P : List Int) (hne : P ≠ []) :
    P.getLast? = some (char_at P (P.length - 1)) := by
  rw [List.getLast?_eq_getElem?]
  have hlt : P.length - 1 < P.length := by
    have := List.length_pos.mpr hne
    omega
  simp [char_at, List.getD_eq_getElem?_getD, List.getElem?_eq_getElem hlt]

/-- The working directory buffer after the `cd` branch, for a path of 1 to 199
characters: the path itself when it ends with '/', the path and one '/'
otherwise; a buffer of 256 bytes keeps its extent. -/
theorem cmd_cd_path (P : List Int) (s : Kernel.KState) (hP : is_cstring P)
    (hpos : 0 < P.length) (hlt : P.length < 200) :
    (P.getLast? = some 47 →
      string_at (Kernel.cmd_cd (cstr "cd " ++ P) s).current_path = P) ∧
    (P.getLast? ≠ some 47 →
      string_at (Kernel.cmd_cd (cstr "cd " ++ P) s).current_path = P ++ [47]) ∧
    (s.current_path.length = 256 →
      (Kernel.cmd_cd (cstr "cd " ++ P) s).current_path.length = 256) := by
  have hdrop : (cstr "cd " ++ P).drop 3 = P := by
    rw [show cstr "cd " = [99, 100, 32] by decide]
    rfl
  have hlen : first_nul P = P.length := first_nul_of_cstring P hP
  have hne : P ≠ [] := List.length_pos.mp hpos
  have hcpy := kernel_strcpy_eq_append s.current_path P hP
  have hstr : Kernel.strlen P = (P.length : Int) := by
    rw [kernel_strlen_short P (by omega), hlen]
  have hslen : Kernel.strlen (Kernel.strcpy s.current_path P) = (P.length : Int) := by
    rw [kernel_strlen_strcpy, hstr]
  have hidx : (P.length : Int) - 1 = ((P.length - 1 : Nat) : Int) := by omega
  have hlastc : read_char (Kernel.strcpy s.current_path P) ((P.length : Int) - 1) =
      char_at P (P.length - 1) := by
    rw [hidx, read_char_nat]
    exact kernel_strcpy_copied s.current_path P (P.length - 1) (by rw [hlen]; omega)
  have hlast := char_at_last P hne
  have hn1 : ((P.length : Int)).toNat = P.length := Int.toNat_ofNat _
  have hn2 : ((P.length : Int) + 1).toNat = P.length + 1 := by omega
  rw [cmd_cd_current_path, hdrop, hstr, if_pos ⟨by omega, by omega⟩, hslen, hlastc, hn1, hn2]
  obtain ⟨rt, hst, hrt⟩ := store_slash_nul P (s.current_path.drop (P.length + 1))
  refine ⟨?_, ?_, ?_⟩
  · intro h47
    rw [hlast] at h47
    have h : char_at P (P.length - 1) = 47 := by simpa using h47
    rw [if_neg (by simpa using h)]
    exact string_at_strcpy s.current_path P hP
  · intro h47
    rw [hlast] at h47
    have h : char_at P (P.length - 1) ≠ 47 := fun hh => h47 (by rw [hh])
    rw [if_pos h, hcpy, hst]
    have hP47 : is_cstring (P ++ [47]) := by
      intro x hx
      rcases List.mem_append.mp hx with h1 | h1
      · exact hP x h1
      · simp at h1; omega
    have := string_at_append_nul (P ++ [47]) rt hP47
    simpa using this
  · intro hbuf
    have hcap : first_nul P < s.current_path.length := by rw [hlen, hbuf]; omega
    have hl := kernel_strcpy_length s.current_path P hcap
    split_ifs
    · rw [hcpy, hst, hrt, ← hcpy, hl, hbuf]
      intro hnil
      have := congrArg List.length hnil
      simp [hbuf] at this
      omega
    · rw [hl, hbuf]

/-- A string that starts with two characters x, y is different, for strcmp,
from every string that does not start with x, y. -/
theorem kernel_strcmp_ne_zero_of_two (x y : Int) (r b : List Int) (hx : x ≠ 0) (hy : y ≠ 0)
    (h : ¬ (x = peek b ∧ y = peek b.tail)) : ¬ (Kernel.strcmp (x :: y :: r) b = 0) := by
  cases b with
  | nil =>
    simp only [Kernel.strcmp, peek, List.headD_nil, ne_eq, hx, not_false_eq_true, and_false,
      if_false]
    omega
  | cons b1 bt =>
    by_cases h1 : x = b1
    · have h2 : ¬ (y = peek bt) := fun hh => h ⟨by simpa [peek] using h1, by simpa using hh⟩
      subst h1
      simp only [Kernel.strcmp, peek, List.headD_cons, ne_eq, hx, not_false_eq_true, and_self,
        if_true, List.tail_cons]
      cases bt with
      | nil =>
        simp only [Kernel.strcmp, peek, List.headD_nil, ne_eq, hy, not_false_eq_true,
          and_false, if_false]
        omega
      | cons b2 bt2 =>
        have h3 : ¬ (y = b2) := by simpa [peek] using h2
        simp only [Kernel.strcmp, peek, List.headD_cons, ne_eq, hy, not_false_eq_true, h3,
          and_false, if_false]
        omega
    · simp only [Kernel.strcmp, peek, List.headD_cons, ne_eq, hx, not_false_eq_true, h1,
        and_false, if_false]
      omega

theorem execute_command_cd (fuel : Nat) (P : List Int) (s : Kernel.KState) :
    Kernel.execute_command fuel (cstr "cd " ++ P) s =
      Kernel.done (Kernel.cmd_cd (cstr "cd " ++ P) s) := by
  have hcmd : cstr "cd " ++ P = 99 :: 100 :: 32 :: P := by
    rw [show cstr "cd " = [99, 100, 32] by decide]
    rfl
  have hne : ∀ b : List Int, ¬ ((99 : Int) = peek b ∧ (100 : Int) = peek b.tail) →
      ¬ (Kernel.strcmp (cstr "cd " ++ P) b = 0) := by
    intro b hb
    rw [hcmd]
    exact kernel_strcmp_ne_zero_of_two 99 100 (32 :: P) b (by decide) (by decide) hb
  have hcd : Kernel.strncmp (cstr "cd " ++ P) (cstr "cd ") 3 = 0 := by
    have h := kernel_strncmp_eq_strcmp_take 3 (cstr "cd " ++ P) (cstr "cd ")
    rw [show ((3 : Nat) : Int) = 3 from rfl] at h
    rw [h, hcmd]
    show Kernel.strcmp [99, 100, 32] (List.take 3 (cstr "cd ")) = 0
    decide
  unfold Kernel.execute_command
  rw [if_neg (hne _ (by decide)),
    if_neg (not_or.mpr ⟨hne _ (by decide), hne _ (by decide)⟩),
    if_neg (not_or.mpr ⟨hne _ (by decide), hne _ (by decide)⟩),
    if_neg (hne _ (by decide)), if_neg (hne _ (by decide)), if_neg (hne _ (by decide)),
    if_neg (hne _ (by decide)), if_neg (hne _ (by decide)), if_neg (hne _ (by decide)),
    if_neg (hne _ (by decide)), if_neg (hne _ (by decide)), if_neg (hne _ (by decide)),
    if_neg (hne _ (by decide)), if_pos hcd]

/-- What "pwd" does from any state: it returns after printing the string held
in current_path and a newline. -/
theorem execute_command_pwd_prints (fuel : Nat) (s : Kernel.KState) :
    (Kernel.execute_command fuel (cstr "pwd") s).returned = true ∧
    (Kernel.execute_command fuel (cstr "pwd") s).state =
      Kernel.kprint (string_at s.current_path ++ cstr "\n") s := by
  rw [execute_command_pwd]
  refine ⟨rfl, ?_⟩
  rw [kprint_append _ _ _ (is_cstring_string_at s.current_path), ← kprint_string_at]
  rfl

/-- C13: for every path P with 0 < strlen(P) < 200, the kernel's
execute_command("cd " followed by P) returns with the working directory
current_path holding P when P already ends with '/', and P followed by a
single '/' otherwise (a 256-byte buffer keeps its extent); a following "pwd"
returns after printing exactly that string and a newline. -/
theorem cd_contract (fuel : Nat) (P : List Int) (s : Kernel.KState) (hP : is_cstring P)
    (hpos : 0 < Kernel.strlen P) (hlt : Kernel.strlen P < 200) :
    (Kernel.execute_command fuel (cstr "cd " ++ P) s).returned = true ∧
    (P.getLast? = some 47 →
      string_at (Kernel.execute_command fuel (cstr "cd " ++ P) s).state.current_path = P ∧
      (Kernel.execute_command fuel (cstr "pwd")
        (Kernel.execute_command fuel (cstr "cd " ++ P) s).state).state =
        Kernel.kprint (P ++ cstr "\n")
          (Kernel.execute_command fuel (cstr "cd " ++ P) s).state) ∧
    (P.getLast? ≠ some 47 →
      string_at (Kernel.execute_command fuel (cstr "cd " ++ P) s).state.current_path =
        P ++ cstr "/" ∧
      (Kernel.execute_command fuel (cstr "pwd")
        (Kernel.execute_command fuel (cstr "cd " ++ P) s).state).state =
        Kernel.kprint (P ++ cstr "/" ++ cstr "\n")
          (Kernel.execute_command fuel (cstr "cd " ++ P) s).state) ∧
    (Kernel.execute_command fuel (cstr "pwd")
      (Kernel.execute_command fuel (cstr "cd " ++ P) s).state).returned = true ∧
    (s.current_path.length = 256 →
      (Kernel.execute_command fuel (cstr "cd " ++ P) s).state.current_path.length = 256) := by
  have hfn : first_nul P < 2147483648 := by
    by_contra hbig
    rw [kernel_strlen_eq, if_neg hbig] at hpos
    omega
  rw [kernel_strlen_short P hfn, first_nul_of_cstring P hP] at hpos hlt
  have hpath := cmd_cd_path P s hP (by omega) (by omega)
  have hpwd := execute_command_pwd_prints fuel
    (Kernel.execute_command fuel (cstr "cd " ++ P) s).state
  rw [execute_command_cd] at hpwd ⊢
  have hslash : cstr "/" = [47] := by decide
  refine ⟨rfl, ?_, ?_, hpwd.1, hpath.2.2⟩
  · intro h47
    have h := hpath.1 h47
    refine ⟨h, ?_⟩
    rw [hpwd.2]
    simp only [Kernel.done] at h ⊢
    rw [h]
  · intro h47
    have h := hpath.2.1 h47
    rw [hslash]
    refine ⟨h, ?_⟩
    rw [hpwd.2]
    simp only [Kernel.done] at h ⊢
    rw [h]

/-- C13, witness: "cd /usr" leaves "/usr/" in current_path, "cd /usr/" leaves
"/usr/" as well, and the 256-byte buffer keeps its extent. -/
theorem cd_contract_witness :
    is_cstring (cstr "/usr") ∧ 0 < Kernel.strlen (cstr "/usr") ∧
    Kernel.strlen (cstr "/usr") < 200 ∧
    string_at (Kernel.execute_command 0 (cstr "cd " ++ cstr "/usr")
      Kernel.initial_state).state.current_path = cstr "/usr" ++ cstr "/" ∧
    string_at (Kernel.execute_command 0 (cstr "cd " ++ cstr "/usr/")
      Kernel.initial_state).state.current_path = cstr "/usr/" ∧
    (Kernel.execute_command 0 (cstr "cd " ++ cstr "/usr")
      Kernel.initial_state).state.current_path.length = 256 :=
  ⟨by decide, by decide, by decide,
   ((cd_contract 0 (cstr "/usr") Kernel.initial_state (by decide) (by decide)
      (by decide)).2.2.1 (by decide)).1,
   ((cd_contract 0 (cstr "/usr/") Kernel.initial_state (by decide) (by decide)
      (by decide)).2.1 (by decide)).1,
   (cd_contract 0 (cstr "/usr") Kernel.initial_state (by decide) (by decide)
      (by decide)).2.2.2.2
      (by simp only [Kernel.initial_state, List.length_cons, List.length_replicate])⟩

set_option maxRecDepth 100000 in
/-- An example run from the blank screen: after "cd /usr", row 0 reads
"Changing directory to: /usr"; after the following "pwd", row 1 reads "/usr/"
on attribute 0x07 and the cursor is at column 0, row 2. -/
theorem cd_pwd_screen_example :
    (List.range 27).map
        (fun i => (Kernel.execute_command 0 (cstr "cd /usr")
          Kernel.initial_state).state.vga_buffer (i * 2)) =
      cstr "Changing directory to: /usr" ∧
    (List.range 6).map
        (fun i => (Kernel.execute_command 0 (cstr "pwd")
          (Kernel.execute_command 0 (cstr "cd /usr") Kernel.initial_state).state).state.vga_buffer
            ((80 + i) * 2)) = cstr "/usr/ " ∧
    (List.range 5).map
        (fun i => (Kernel.execute_command 0 (cstr "pwd")
          (Kernel.execute_command 0 (cstr "cd /usr") Kernel.initial_state).state).state.vga_buffer
            ((80 + i) * 2 + 1)) = [7, 7, 7, 7, 7] ∧
    (Kernel.execute_command 0 (cstr "pwd")
      (Kernel.execute_command 0 (cstr "cd /usr") Kernel.initial_state).state).state.cursor_x = 0 ∧
    (Kernel.execute_command 0 (cstr "pwd")
      (Kernel.execute_command 0 (cstr "cd /usr") Kernel.initial_state).state).state.cursor_y = 2 := by
  refine ⟨by decide, by decide, by decide, by decide, by decide⟩


/-! ## Clear screen -/

/-- What the blanking loop leaves in each byte of the buffer. -/
theorem blank_cells_apply (buf : Nat → Int) (start count j : Nat) :
    Kernel.blank_cells buf start count j =
      if 2 * start ≤ j ∧ j < 2 * (start + count) then (if j % 2 = 0 then 32 else 7)
      else buf j := by
  unfold Kernel.blank_cells
  induction count generalizing buf start with
  | zero =>
    simp only [List.range'_zero, List.foldl_nil]
    rw [if_neg (by omega)]
  | succ n ih =>
    rw [List.range'_succ, List.foldl_cons, ih]
    simp only [Kernel.vga_set]
    split_ifs <;> first | rfl | (exfalso; omega)

theorem execute_command_clear (fuel : Nat) (s : Kernel.KState) :
    Kernel.execute_command fuel (cstr "clear") s = Kernel.done (Kernel.cmd_clear s) := by
  unfold Kernel.execute_command
  rw [if_neg (by decide), if_pos (by decide)]

theorem execute_command_cls (fuel : Nat) (s : Kernel.KState) :
    Kernel.execute_command fuel (cstr "cls") s = Kernel.done (Kernel.cmd_clear s) := by
  unfold Kernel.execute_command
  rw [if_neg (by decide), if_pos (by decide)]

/-- C14: from every state, the kernel's execute_command("clear") and
execute_command("cls") return to the caller in the same state, in which each
of the 80 x 25 = 2000 cells holds the character ' ' (32) with attribute 0x07
and the cursor is at column 0, row 0. -/
theorem clear_screen_contract (fuel : Nat) (s : Kernel.KState) :
    Kernel.execute_command fuel (cstr "clear") s = Kernel.execute_command fuel (cstr "cls") s ∧
    (Kernel.execute_command fuel (cstr "clear") s).returned = true ∧
    (∀ cell, cell < 80 * 25 →
      (Kernel.execute_command fuel (cstr "clear") s).state.vga_buffer (cell * 2) = 32 ∧
      (Kernel.execute_command fuel (cstr "clear") s).state.vga_buffer (cell * 2 + 1) = 0x07) ∧
    (Kernel.execute_command fuel (cstr "clear") s).state.cursor_x = 0 ∧
    (Kernel.execute_command fuel (cstr "clear") s).state.cursor_y = 0 ∧
    (Kernel.execute_command fuel (cstr "clear") s).state.current_path = s.current_path := by
  rw [execute_command_clear, execute_command_cls]
  refine ⟨rfl, rfl, ?_, by simp only [Kernel.done, Kernel.cmd_clear],
    by simp only [Kernel.done, Kernel.cmd_clear], by simp only [Kernel.done, Kernel.cmd_clear]⟩
  intro cell hcell
  simp only [Kernel.done, Kernel.cmd_clear]
  rw [blank_cells_apply, blank_cells_apply]
  constructor
  · rw [if_pos (by omega), if_pos (by omega)]
  · rw [if_pos (by omega), if_neg (by omega)]

/-- C14, witness: on a screen full of 'A' with the cursor at (17, 9), "clear"
leaves a blank with attribute 0x07 in the last cell and the cursor at (0, 0),
and "cls" gives the same state. -/
theorem clear_screen_contract_witness :
    Kernel.dirty_state.vga_buffer (1999 * 2) = 65 ∧
    (Kernel.execute_command 0 (cstr "clear") Kernel.dirty_state).state.vga_buffer (1999 * 2) =
      32 ∧
    (Kernel.execute_command 0 (cstr "clear") Kernel.dirty_state).state.vga_buffer
      (1999 * 2 + 1) = 0x07 ∧
    (Kernel.execute_command 0 (cstr "clear") Kernel.dirty_state).state.cursor_x = 0 ∧
    Kernel.execute_command 0 (cstr "clear") Kernel.dirty_state =
      Kernel.execute_command 0 (cstr "cls") Kernel.dirty_state :=
  ⟨by decide,
   ((clear_screen_contract 0 Kernel.dirty_state).2.2.1 1999 (by decide)).1,
   ((clear_screen_contract 0 Kernel.dirty_state).2.2.1 1999 (by decide)).2,
   (clear_screen_contract 0 Kernel.dirty_state).2.2.2.1,
   (clear_screen_contract 0 Kernel.dirty_state).1⟩


end LamaOS
